import Mathlib

/-!
Verification of the knowledge-base generator's semantic graph engine.

This file gives a shallow embedding, in Lean 4, of the core of the
`kb_generator` Python package:

* `kb_generator/analyzers/pattern_detector.py` — role predicates,
* `kb_generator/analyzers/dependency_graph.py` — graph construction,
  short-name resolution and bounded upstream traversal,
* `kb_generator/analyzers/impact_analyzer.py` — change-impact analysis,
* `kb_generator/parsers/models.py` — `ImpactReport.risk_level`,
* `kb_generator/state/tracker.py` — `compute_changes` / `update_file_states`.

Python strings are embedded as `String` with explicit character-list
operations mirroring `in` (substring), `endswith`, `replace`, slicing at
the first `<`, and the regex used by `_extract_generic_arg`.  Python
`set`s are embedded as duplicate-free lists built with an
insert-if-absent operation, so membership coincides and insertion order
is a fixed representative of CPython's unspecified set-iteration order;
every theorem below depends only on membership, or quantifies over the
order where it could matter.  Filesystem access (`Path.resolve`,
`open`, SHA-256 hashing of file bytes) is abstracted by passing the
already-resolved path strings and a fingerprint function as parameters.
-/

/- ──────────────────────── String helpers ──────────────────────── -/

/-- Contiguous-sublist test on character lists. -/
def charsInfixOf (pat : List Char) : List Char → Bool
  | [] => pat.isEmpty
  | c :: rest => pat.isPrefixOf (c :: rest) || charsInfixOf pat rest

/-- Python `pat in s` (substring containment). -/
def strContains (s pat : String) : Bool := charsInfixOf pat.data s.data

/-- Python `s.endswith(pat)`. -/
def strEndsWith (s pat : String) : Bool := pat.data.isSuffixOf s.data

/-- Python `s.startswith(pat)`. -/
def strStartsWith (s pat : String) : Bool := pat.data.isPrefixOf s.data

/-- Python `s.lower()` (ASCII case fold, which is all the source feeds it). -/
def strLower (s : String) : String := ⟨s.data.map Char.toLower⟩

/-- Python `s.replace(pat, repl)`: left-to-right, non-overlapping, the
replacement text is not rescanned.  An empty pattern is treated as
"no occurrences" (the source only ever passes non-empty patterns).
Structural recursion on a fuel that dominates the scan: every step
consumes at least one input character (a match consumes
`pat.length ≥ 1` of them), so fuel `s.length` never runs out. -/
def replaceChars (pat repl : List Char) : Nat → List Char → List Char
  | 0, s => s
  | _ + 1, [] => []
  | fuel + 1, c :: rest =>
    if pat.isPrefixOf (c :: rest) ∧ pat ≠ [] then
      repl ++ replaceChars pat repl fuel ((c :: rest).drop pat.length)
    else
      c :: replaceChars pat repl fuel rest

/-- Python `s.replace(pat, repl)` on `String`. -/
def strReplace (s pat repl : String) : String :=
  ⟨replaceChars pat.data repl.data s.data.length s.data⟩

/-- `_strip_generic`: cut at the first `<` (Python `name[:name.find("<")]`). -/
def stripGeneric (s : String) : String := ⟨s.data.takeWhile (fun c => c ≠ '<')⟩

/-- Characters excluded by the character class of the regex
`<\s*([^<>,\s]+)` used by `_extract_generic_arg`. -/
def isGenDelim (c : Char) : Bool := c = '<' || c = '>' || c = ',' || c.isWhitespace

/-- `re.search(r"<\s*([^<>,\s]+)", name)`: at each `<` (scanning left to
right, as `re.search` retries at every later index), skip whitespace and
take a non-empty run of non-delimiter characters; otherwise keep
scanning. -/
def extractGenericArgAux : List Char → Option (List Char)
  | [] => none
  | c :: rest =>
    if c = '<' then
      let run := (rest.dropWhile Char.isWhitespace).takeWhile (fun d => !(isGenDelim d))
      if run ≠ [] then some run else extractGenericArgAux rest
    else extractGenericArgAux rest

/-- `_extract_generic_arg`: first generic type argument, if any. -/
def extractGenericArg (s : String) : Option String :=
  (extractGenericArgAux s.data).map (fun l => ⟨l⟩)

/- ──────────────────────── Parsed-code data model ──────────────────────── -/

/-- `ParameterInfo` (fields the engine reads). -/
structure ParameterInfo where
  name : String
  type_name : String
deriving DecidableEq, Repr

/-- `ConstructorInfo` (fields the engine reads). -/
structure ConstructorInfo where
  parameters : List ParameterInfo
deriving DecidableEq, Repr

/-- `PropertyInfo` (the engine only tests list emptiness). -/
structure PropertyInfo where
  name : String
deriving DecidableEq, Repr

/-- `MethodInfo` (the engine only tests list emptiness). -/
structure MethodInfo where
  name : String
deriving DecidableEq, Repr

/-- `ClassInfo`: fields read by the graph engine.  `namespace` is a Lean
keyword, so the Python `namespace` field is named `namespaceName`. -/
structure ClassInfo where
  name : String
  namespaceName : String
  file_path : String
  class_kind : String := "class"
  base_classes : List String := []
  interfaces : List String := []
  properties : List PropertyInfo := []
  methods : List MethodInfo := []
  constructors : List ConstructorInfo := []
  attributes : List String := []
deriving DecidableEq, Repr

/-- `ClassInfo.full_name`: `f"{ns}.{name}" if ns else name`. -/
def ClassInfo.full_name (c : ClassInfo) : String :=
  if c.namespaceName = "" then c.name else c.namespaceName ++ "." ++ c.name

/- ──────────────────────── PatternDetector ──────────────────────── -/

/-- `PatternDetector.detect_aggregate_root` (exact list membership for the
interface, substring scan for attributes, as in the source). -/
def detect_aggregate_root (c : ClassInfo) : Bool :=
  c.interfaces.contains "IAggregateRoot"
    || c.attributes.any (fun a => strContains a "AggregateRoot")

/-- `PatternDetector.detect_value_object`. -/
def detect_value_object (c : ClassInfo) : Bool :=
  c.attributes.any (fun a => strContains a "ValueObject" || strContains a "Vogen")
    || c.base_classes.any (fun b => strContains b "ValueObject")
    || (c.class_kind == "record" && c.methods.isEmpty)

/-- `PatternDetector.detect_domain_event`. -/
def detect_domain_event (c : ClassInfo) : Bool :=
  strEndsWith c.name "Event"
    || (c.interfaces.map strLower).any
        (fun i => strContains i "event" || strContains i "domainevent")
    || (c.base_classes.map strLower).any
        (fun b => strContains b "event" || strContains b "domainevent")

/-- `PatternDetector.detect_event_handler`. -/
def detect_event_handler (c : ClassInfo) : Bool :=
  c.interfaces.any (fun i =>
    strContains i "NotificationHandler" || strContains i "EventHandler"
      || strContains i "DomainEventHandler")

/-- `PatternDetector.detect_specification`. -/
def detect_specification (c : ClassInfo) : Bool :=
  strEndsWith c.name "Spec" || strEndsWith c.name "Specification"
    || c.base_classes.any (fun b => strContains b "Specification")

/-- `PatternDetector.detect_command`. -/
def detect_command (c : ClassInfo) : Bool :=
  strEndsWith c.name "Command"
    || c.interfaces.any (fun i =>
        strContains i "ICommand" || (strContains i "IRequest" && strContains c.name "Command"))

/-- `PatternDetector.detect_query`. -/
def detect_query (c : ClassInfo) : Bool :=
  strEndsWith c.name "Query"
    || c.interfaces.any (fun i =>
        strContains i "IQuery" || (strContains i "IRequest" && strContains c.name "Query"))

/-- `PatternDetector.detect_handler`. -/
def detect_handler (c : ClassInfo) : Bool :=
  strEndsWith c.name "Handler"
    || c.interfaces.any (fun i =>
        strContains i "Handler"
          && (strContains i "Command" || strContains i "Query" || strContains i "Request"))

/-- `PatternDetector.detect_repository`. -/
def detect_repository (c : ClassInfo) : Bool :=
  c.interfaces.any (fun i => strContains i "IRepository")
    || c.base_classes.any (fun b => strContains b "Repository")
    || strContains c.name "Repository"

/-- `PatternDetector.detect_endpoint`. -/
def detect_endpoint (c : ClassInfo) : Bool :=
  c.base_classes.any (fun b => strContains b "Endpoint")
    || c.attributes.contains "[ApiController]"
    || c.attributes.contains "ApiController"
    || c.base_classes.any (fun b => strContains b "Controller")

/-- `PatternDetector.detect_ef_configuration`. -/
def detect_ef_configuration (c : ClassInfo) : Bool :=
  c.interfaces.any (fun i => strContains i "IEntityTypeConfiguration")

/-- `PatternDetector.detect_dto`. -/
def detect_dto (c : ClassInfo) : Bool :=
  (c.class_kind == "record" && c.methods.isEmpty && !c.properties.isEmpty)
    || ["DTO", "Dto", "Request", "Response", "Model"].any (fun suf => strEndsWith c.name suf)

/- ──────────────────────── Role / layer classification ──────────────────────── -/

/-- `dependency_graph._classify_role`: first-match-wins if-chain in the
source's fixed priority order. -/
def classify_role (c : ClassInfo) : String :=
  if detect_endpoint c then "endpoint"
  else if detect_command c then "command"
  else if detect_query c then "query"
  else if detect_handler c then "handler"
  else if detect_repository c then "repository"
  else if detect_aggregate_root c then "entity"
  else if detect_ef_configuration c then "config"
  else if detect_dto c then "dto"
  else if detect_specification c then "specification"
  else if detect_value_object c then "value_object"
  else if detect_domain_event c then "domain_event"
  else if detect_event_handler c then "event_handler"
  else if c.class_kind == "interface" then "interface"
  else "other"

/-- `dependency_graph._classify_layer`. -/
def classify_layer (project_name : String) (c : ClassInfo) : String :=
  let pn := strLower project_name
  if ["test", "spec"].any (fun k => strContains pn k) then "Test"
  else if ["web", "api", "host", "server"].any (fun k => strContains pn k) then "Web"
  else if ["infrastructure", "infra", "data", "persistence"].any (fun k => strContains pn k) then
    "Infrastructure"
  else if ["usecase", "application", "usecases"].any (fun k => strContains pn k) then
    "Application"
  else if ["core", "domain", "shared", "kernel"].any (fun k => strContains pn k) then "Core"
  else if detect_endpoint c then "Web"
  else if detect_handler c || detect_command c || detect_query c then "Application"
  else if detect_aggregate_root c || detect_domain_event c then "Core"
  else if detect_repository c || detect_ef_configuration c then "Infrastructure"
  else "Other"

/- ──────────────────────── Dependency graph ──────────────────────── -/

/-- `GraphNode` (parsers/models.py). -/
structure GraphNode where
  class_info : ClassInfo
  role : String := "other"
  project : String := ""
  layer : String := ""
deriving DecidableEq, Repr

/-- `GraphNode.full_name`. -/
def GraphNode.full_name (n : GraphNode) : String := n.class_info.full_name

/-- `GraphEdge` (parsers/models.py). -/
structure GraphEdge where
  source : String
  target : String
  edge_type : String
  label : String := ""
deriving DecidableEq, Repr

/-- Python `dict` assignment `d[k] = v` on an insertion-ordered
association list: an existing key keeps its position and gets the new
value; a new key is appended. -/
def assocInsert {α : Type} : List (String × α) → String → α → List (String × α)
  | [], k, v => [(k, v)]
  | (k0, v0) :: rest, k, v =>
    if k0 = k then (k, v) :: rest else (k0, v0) :: assocInsert rest k v

/-- Python `d.get(k)` on an association list (first matching key). -/
def assocFind {α : Type} (l : List (String × α)) (k : String) : Option α :=
  (l.find? (fun p => p.1 == k)).map (fun p => p.2)

/-- `DependencyGraph` state.  `nodesList` is the `self.nodes` dict in
insertion order; `shortNamePairs` is `_short_name_index` flattened to
(short name, full name) pairs with set semantics (no duplicate pair);
`interfaceMapPairs` is `interface_map` flattened to
(interface full name, implementation full name) pairs in append order.
The `_incoming`/`_outgoing` adjacency caches are derived views of
`edges` (`add_edge` appends to all three in lockstep), so they are
recomputed by filtering below. -/
structure DependencyGraph where
  nodesList : List (String × GraphNode)
  edges : List GraphEdge
  interfaceMapPairs : List (String × String)
  shortNamePairs : List (String × String)
deriving Repr

/-- `self.graph.nodes.get(full)`. -/
def DependencyGraph.lookupNode (g : DependencyGraph) (full : String) : Option GraphNode :=
  assocFind g.nodesList full

/-- `DependencyGraph.add_node`. -/
def DependencyGraph.add_node (g : DependencyGraph) (cls : ClassInfo)
    (role project layer : String) : DependencyGraph :=
  { g with
    nodesList := assocInsert g.nodesList cls.full_name
      { class_info := cls, role := role, project := project, layer := layer }
    shortNamePairs :=
      if (cls.name, cls.full_name) ∈ g.shortNamePairs then g.shortNamePairs
      else g.shortNamePairs ++ [(cls.name, cls.full_name)] }

/-- `DependencyGraph.add_edge`. -/
def DependencyGraph.add_edge (g : DependencyGraph) (e : GraphEdge) : DependencyGraph :=
  { g with edges := g.edges ++ [e] }

/-- `DependencyGraph.resolve_name`: strip generics, look up the set of
full names sharing the stripped short name. -/
def DependencyGraph.resolve_name (g : DependencyGraph) (short_name : String) : List String :=
  let stripped := stripGeneric short_name
  (g.shortNamePairs.filter (fun p => p.1 == stripped)).map (fun p => p.2)

/-- `DependencyGraph.resolve_interface`. -/
def DependencyGraph.resolve_interface (g : DependencyGraph) (interface_name : String) :
    List GraphNode :=
  let stripped := stripGeneric interface_name
  (g.resolve_name stripped).foldl (fun acc full =>
    acc ++ ((g.interfaceMapPairs.filter (fun p => p.1 == full)).map (fun p => p.2)).filterMap
      (fun impl => g.lookupNode impl)) []

/-- `_incoming[name]`: edges pointing at `name`, in insertion order. -/
def DependencyGraph.incoming (g : DependencyGraph) (name : String) : List GraphEdge :=
  g.edges.filter (fun e => e.target == name)

/-- `_outgoing[name]`: edges leaving `name`, in insertion order. -/
def DependencyGraph.outgoing (g : DependencyGraph) (name : String) : List GraphEdge :=
  g.edges.filter (fun e => e.source == name)

/-- `DependencyGraph.get_dependents`: sources of incoming edges that are
registered nodes. -/
def DependencyGraph.get_dependents (g : DependencyGraph) (class_name : String) : List GraphNode :=
  (g.incoming class_name).filterMap (fun e => g.lookupNode e.source)

/-- `DependencyGraph.get_dependencies`: targets of outgoing edges that
are registered nodes. -/
def DependencyGraph.get_dependencies (g : DependencyGraph) (class_name : String) :
    List GraphNode :=
  (g.outgoing class_name).filterMap (fun e => g.lookupNode e.target)

/-- Python `set.add` on a duplicate-free list. -/
def sAdd (l : List String) (x : String) : List String := if x ∈ l then l else l ++ [x]

/-- Fuel which provably dominates the loop measure of the
`get_all_upstream` BFS for any graph (see `bfsUpstream_some`). -/
def upstreamFuel (edges : List GraphEdge) : Nat :=
  (edges.length + 1) * (edges.length + 1) + 2

/-- The `while queue:` loop of `get_all_upstream`, fuelled.  Each
iteration pops the queue head; an already-visited or too-deep entry is
skipped; otherwise the entry is visited and the sources of its incoming
edges not yet visited are appended at depth + 1.  `none` means the fuel
ran out, which `bfsUpstream_some` proves never happens at
`upstreamFuel`: this is the termination argument for the Python `while`
loop (cyclic graphs included). -/
def bfsUpstream (edges : List GraphEdge) (maxDepth : Nat) :
    Nat → List String → List (String × Nat) → Option (List String)
  | 0, _, _ => none
  | _ + 1, visited, [] => some visited
  | fuel + 1, visited, (current, depth) :: rest =>
    if current ∈ visited ∨ depth > maxDepth then
      bfsUpstream edges maxDepth fuel visited rest
    else
      let visited' := visited ++ [current]
      let appended := ((edges.filter (fun e => e.target == current)).filter
          (fun e => !(visited'.contains e.source))).map (fun e => (e.source, depth + 1))
      bfsUpstream edges maxDepth fuel visited' (rest ++ appended)

/-- `DependencyGraph.get_all_upstream` (the Python default for
`max_depth` is 10; callers pass it explicitly here).  The final
`visited.discard(class_name)` is the closing filter. -/
def DependencyGraph.get_all_upstream (g : DependencyGraph) (class_name : String)
    (maxDepth : Nat) : List String :=
  ((bfsUpstream g.edges maxDepth (upstreamFuel g.edges) [] [(class_name, 0)]).getD []).filter
    (fun v => v != class_name)

/-- Hop-bounded chains along reversed edges: `UpPath edges x y k` says
there are `x = z₀, z₁, …, z_k = y` with an edge `z_{i+1} → z_i` for each
step — exactly the paths the upstream BFS walks. -/
inductive UpPath (edges : List GraphEdge) (x : String) : String → Nat → Prop where
  | refl : UpPath edges x x 0
  | step {y k} (e : GraphEdge) (hmem : e ∈ edges) (ht : e.target = y)
      (hp : UpPath edges x y k) : UpPath edges x e.source (k + 1)

/- ──────────────────────── Graph construction ──────────────────────── -/

/-- `_add_resolved_edge`: fan out to every resolved candidate, skipping
self-edges; an unresolved reference adds nothing. -/
def addResolvedEdge (g : DependencyGraph) (source target_name edge_type label : String) :
    DependencyGraph :=
  let stripped := stripGeneric target_name
  (g.resolve_name stripped).foldl (fun g full =>
    if full ≠ source then
      g.add_edge ⟨source, full, edge_type, label⟩
    else g) g

/-- Step 1 of `build_dependency_graph`: classify and register every
class as a node. -/
def buildStep1 (projectForClass : ClassInfo → String) (all_classes : List ClassInfo) :
    DependencyGraph :=
  all_classes.foldl (fun g cls =>
      g.add_node cls (classify_role cls) (projectForClass cls)
        (classify_layer (projectForClass cls) cls))
    { nodesList := [], edges := [], interfaceMapPairs := [], shortNamePairs := [] }

/-- Step 2 of `build_dependency_graph`: interface → implementation map. -/
def buildStep2 (all_classes : List ClassInfo) (g1 : DependencyGraph) : DependencyGraph :=
  all_classes.foldl (fun g cls =>
      cls.interfaces.foldl (fun g iface =>
        (g.resolve_name (stripGeneric iface)).foldl (fun g full =>
          { g with interfaceMapPairs := g.interfaceMapPairs ++ [(full, cls.full_name)] }) g) g) g1

/-- Step 3 of `build_dependency_graph`: injects / inherits / implements
edges for every class. -/
def buildStep3 (all_classes : List ClassInfo) (g2 : DependencyGraph) : DependencyGraph :=
  all_classes.foldl (fun g cls =>
      let src := cls.full_name
      let ga := cls.constructors.foldl (fun g ctor =>
          ctor.parameters.foldl (fun g param =>
            addResolvedEdge g src param.type_name "injects"
              ("constructor param: " ++ param.name)) g) g
      let gb := cls.base_classes.foldl (fun g base =>
          addResolvedEdge g src base "inherits" ("extends " ++ base)) ga
      cls.interfaces.foldl (fun g iface =>
          addResolvedEdge g src iface "implements" ("implements " ++ iface)) gb) g2

/-- The `cq_by_name` dict of `build_dependency_graph` step 4: short name
→ command/query node (last writer wins, insertion order kept). -/
def cqByName (g : DependencyGraph) : List (String × GraphNode) :=
  ((g.nodesList.map (fun p => p.2)).filter
      (fun n => n.role == "command" || n.role == "query")).foldl
    (fun d n => assocInsert d n.class_info.name n) []

/-- Step 4 of `build_dependency_graph`: `handles` edges — naming
convention first (`Command` before `Query`, with `break`), then the
generic-interface-argument heuristic, skipping a combination already
recorded. -/
def buildStep4 (cq_by_name : List (String × GraphNode)) (g3 : DependencyGraph) :
    DependencyGraph :=
  let handler_nodes := (g3.nodesList.map (fun p => p.2)).filter (fun n => n.role == "handler")
  handler_nodes.foldl (fun g hn =>
      let base := strReplace hn.class_info.name "Handler" ""
      let gConv :=
        match assocFind cq_by_name (base ++ "Command") with
        | some cqn =>
          g.add_edge ⟨hn.full_name, cqn.full_name, "handles", "handles " ++ base ++ "Command"⟩
        | none =>
          match assocFind cq_by_name (base ++ "Query") with
          | some cqn =>
            g.add_edge ⟨hn.full_name, cqn.full_name, "handles", "handles " ++ base ++ "Query"⟩
          | none => g
      hn.class_info.interfaces.foldl (fun g iface =>
        match extractGenericArg iface with
        | none => g
        | some arg =>
          match assocFind cq_by_name arg with
          | none => g
          | some cqn =>
            let already := g.edges.any (fun e =>
              e.source == hn.full_name && e.target == cqn.full_name && e.edge_type == "handles")
            if already then g
            else g.add_edge ⟨hn.full_name, cqn.full_name, "handles", "handles " ++ arg⟩) gConv) g3

/-- Step 5 of `build_dependency_graph`: endpoint → command/query
`sends` edges, from constructor parameters and from the base-class
generic request-type heuristic. -/
def buildStep5 (cq_by_name : List (String × GraphNode)) (g4 : DependencyGraph) :
    DependencyGraph :=
  let endpoint_nodes := (g4.nodesList.map (fun p => p.2)).filter (fun n => n.role == "endpoint")
  endpoint_nodes.foldl (fun g en =>
      let gA := en.class_info.constructors.foldl (fun g ctor =>
          ctor.parameters.foldl (fun g param =>
            let stripped := stripGeneric param.type_name
            match assocFind cq_by_name stripped with
            | some cqn =>
              g.add_edge ⟨en.full_name, cqn.full_name, "sends", "dispatches " ++ stripped⟩
            | none => g) g) g
      en.class_info.base_classes.foldl (fun g b =>
          match extractGenericArg b with
          | none => g
          | some arg =>
            let base_name := strReplace arg "Request" ""
            cq_by_name.foldl (fun g p =>
              if strStartsWith p.1 base_name then
                g.add_edge ⟨en.full_name, p.2.full_name, "sends", "dispatches " ++ p.1⟩
              else g) g) gA) g4

/-- `build_dependency_graph`.  Step 0 of the source resolves each
class's owning project from the solution's file sets, directory
containment and namespace matching; that filesystem-path logic is
abstracted as the `projectForClass` parameter (it only feeds the
`project` and `layer` node metadata, which no edge or role depends on).
Steps 1-5 are the functions above; `cq_by_name` is computed once after
step 3, as in the source, and used by steps 4 and 5. -/
def build_dependency_graph (projectForClass : ClassInfo → String)
    (all_classes : List ClassInfo) : DependencyGraph :=
  let g3 := buildStep3 all_classes (buildStep2 all_classes (buildStep1 projectForClass all_classes))
  let cq := cqByName g3
  buildStep5 cq (buildStep4 cq g3)

/-- Invariant used in the self-edge proof: relative to a base graph
`g0`, the node list is unchanged and every edge is either an old one or
has distinct endpoints. -/
def NodesEdgesOK (g0 g : DependencyGraph) : Prop :=
  g.nodesList = g0.nodesList ∧ ∀ e ∈ g.edges, e ∈ g0.edges ∨ e.source ≠ e.target

/- ──────────────────────── Flows and impact report ──────────────────────── -/

/-- `FlowStep` (fields the impact analyzer reads). -/
structure FlowStep where
  class_name : String
  role : String
  file_path : String := ""
deriving DecidableEq, Repr

/-- `RequestFlow` (fields the impact analyzer reads). -/
structure RequestFlow where
  name : String
  entry_point : String := ""
  steps : List FlowStep := []
deriving DecidableEq, Repr

/-- `RequestFlow.slug`: `self.name.lower().replace(" ", "-")`. -/
def RequestFlow.slug (f : RequestFlow) : String := strReplace (strLower f.name) " " "-"

/-- `ImpactedItem` (parsers/models.py). -/
structure ImpactedItem where
  name : String
  item_type : String
  impact_level : String
  reason : String
  file_path : String := ""
deriving DecidableEq, Repr

/-- `ImpactReport` (parsers/models.py). -/
structure ImpactReport where
  changed_files : List String := []
  timestamp : String := ""
  affected_classes : List ImpactedItem := []
  affected_flows : List ImpactedItem := []
  affected_kb_docs : List ImpactedItem := []
  affected_tests : List ImpactedItem := []
  affected_endpoints : List ImpactedItem := []
deriving DecidableEq, Repr

/-- `ImpactReport.total_impact_count`. -/
def ImpactReport.total_impact_count (r : ImpactReport) : Nat :=
  r.affected_classes.length + r.affected_flows.length + r.affected_kb_docs.length
    + r.affected_tests.length + r.affected_endpoints.length

/-- `ImpactReport.risk_level`: derived from the affected-flow count only. -/
def ImpactReport.risk_level (r : ImpactReport) : String :=
  let flow_count := r.affected_flows.length
  if flow_count ≥ 5 then "critical"
  else if flow_count ≥ 3 then "high"
  else if flow_count ≥ 1 then "medium"
  else "low"

/-- Severity order on risk-tier names (low < medium < high < critical),
used to state that the tier is monotone in the flow count. -/
def riskRank (s : String) : Nat :=
  if s = "low" then 0 else if s = "medium" then 1 else if s = "high" then 2 else 3

/- ──────────────────────── Impact analyzer ──────────────────────── -/

/-- `s.replace("\\", "/")` — path-separator normalisation. -/
def normSlash (s : String) : String := strReplace s "\x5c" "/"

/-- The changed-file ↔ node file-path match of `analyze_impact` step 1:
equality or suffix in either direction, after separator normalisation.
`Path.resolve` on absolute inputs is abstracted: `f` is the path string
the analyzer compares. -/
def pathMatches (node_path f : String) : Bool :=
  let np := normSlash node_path
  let fp := normSlash f
  np == fp || strEndsWith np fp || strEndsWith fp np

/-- `analyze_impact` step 1: the `changed_classes` set, as a
duplicate-free list in discovery order (files outer, nodes inner). -/
def changedClassesOf (g : DependencyGraph) (changedFiles : List String) : List String :=
  changedFiles.foldl (fun acc f =>
    g.nodesList.foldl (fun acc p =>
      if pathMatches p.2.class_info.file_path f then sAdd acc p.1 else acc) acc) []

/-- The three classification sets of `analyze_impact` step 2. -/
structure ImpactSets where
  direct : List String
  indirect : List String
  transitive : List String
deriving Repr

/-- The `is_indirect` test of `analyze_impact` step 2: does some direct
dependency of `u` lie in the changed set? -/
def somedepChanged (g : DependencyGraph) (changed : List String) (u : String) : Bool :=
  (g.get_dependencies u).any (fun dep => dep.full_name ∈ changed)

/-- One iteration of the upstream-classification loop of step 2 (the
body of `for upstream_name in all_upstream`), with `d` the
`direct_impacts` set at that point. -/
def classifyOne (g : DependencyGraph) (changed d : List String)
    (acc : List String × List String) (u : String) : List String × List String :=
  if u ∈ changed then acc
  else if u ∈ d then acc
  else match g.lookupNode u with
    | none => acc
    | some _ =>
      if somedepChanged g changed u then (sAdd acc.1 u, acc.2) else (acc.1, sAdd acc.2 u)

/-- The body of `for cls_name in changed_classes` in step 2: extend the
direct set with one-hop dependents of `c` not in the changed set, then
classify every node of the bounded upstream set. -/
def impactStep (g : DependencyGraph) (changed : List String) (maxDepth : Nat)
    (s : ImpactSets) (c : String) : ImpactSets :=
  let d := (g.get_dependents c).foldl (fun d n =>
      if n.full_name ∉ changed then sAdd d n.full_name else d) s.direct
  let it := (g.get_all_upstream c maxDepth).foldl (classifyOne g changed d)
      (s.indirect, s.transitive)
  ⟨d, it.1, it.2⟩

/-- `analyze_impact` step 2 over the whole changed set (in the given
iteration order). -/
def computeImpactSets (g : DependencyGraph) (changed : List String) (maxDepth : Nat) :
    ImpactSets :=
  changed.foldl (impactStep g changed maxDepth) ⟨[], [], []⟩

/-- `ImpactAnalyzer._build_reason`. -/
def build_reason (g : DependencyGraph) (changed : List String) (cls_name level : String) :
    String :=
  match g.lookupNode cls_name with
  | none => level ++ " dependency"
  | some _ =>
    match (g.get_dependencies cls_name).findSome? (fun dep =>
        if dep.full_name ∈ changed then
          (g.edges.find? (fun e => e.source == cls_name && e.target == dep.full_name)).map
            (fun e => e.edge_type ++ " " ++ dep.class_info.name)
        else none) with
    | some r => r
    | none => level ++ " dependency on changed classes"

/-- The `affected_classes` list: direct, then indirect, then transitive
items (skipping names with no node). -/
def affectedClassesOf (g : DependencyGraph) (changed : List String) (s : ImpactSets) :
    List ImpactedItem :=
  let l1 := s.direct.foldl (fun acc cls_name =>
    match g.lookupNode cls_name with
    | none => acc
    | some node => acc ++ [⟨node.class_info.name, "class", "direct",
        build_reason g changed cls_name "direct", node.class_info.file_path⟩]) []
  let l2 := s.indirect.foldl (fun acc cls_name =>
    match g.lookupNode cls_name with
    | none => acc
    | some node => acc ++ [⟨node.class_info.name, "class", "indirect",
        build_reason g changed cls_name "indirect", node.class_info.file_path⟩]) l1
  s.transitive.foldl (fun acc cls_name =>
    match g.lookupNode cls_name with
    | none => acc
    | some node => acc ++ [⟨node.class_info.name, "class", "transitive",
        "Transitively depends on changed classes", node.class_info.file_path⟩]) l2

/-- Python set union of name lists, as a duplicate-free list. -/
def unionDedup (ls : List (List String)) : List String :=
  ls.foldl (fun acc l => l.foldl sAdd acc) []

/-- `flow_classes & all_impacted` as a duplicate-free list (for the
reason string and the emptiness test). -/
def overlapOf (flow_classes all_impacted : List String) : List String :=
  flow_classes.foldl (fun acc x => if x ∈ all_impacted then sAdd acc x else acc) []

/-- `analyze_impact` step 3: affected flows. -/
def affectedFlowsOf (flows : List RequestFlow) (changed : List String) (s : ImpactSets)
    (all_impacted : List String) : List ImpactedItem :=
  flows.foldl (fun acc flow =>
    let flow_classes := flow.steps.map (fun st => st.class_name)
    let overlap := overlapOf flow_classes all_impacted
    if overlap.isEmpty then acc
    else
      let level :=
        if flow_classes.any (fun x => x ∈ changed) then "direct"
        else if flow_classes.any (fun x => x ∈ s.direct) then "direct"
        else if flow_classes.any (fun x => x ∈ s.indirect) then "indirect"
        else "transitive"
      acc ++ [⟨flow.name, "flow", level, "Flow passes through: " ++ String.intercalate ", " overlap,
        "flows/" ++ flow.slug ++ ".md"⟩]) []

/-- `analyze_impact` step 4 before deduplication: every endpoint step of
a flow that intersects the impacted set becomes an item, always at tier
"indirect". -/
def affectedEndpointsRaw (flows : List RequestFlow) (all_impacted : List String) :
    List ImpactedItem :=
  flows.foldl (fun acc flow =>
    let flow_classes := flow.steps.map (fun st => st.class_name)
    (flow.steps.filter (fun st => st.role == "endpoint")).foldl (fun acc ep =>
      if flow_classes.any (fun x => x ∈ all_impacted) then
        acc ++ [⟨ep.class_name, "endpoint", "indirect",
          "Endpoint for flow: " ++ flow.name ++ " (" ++ flow.entry_point ++ ")", ep.file_path⟩]
      else acc) acc) []

/-- The keep-first-by-name deduplication applied to endpoints, KB docs
and tests. -/
def dedupByName : List String → List ImpactedItem → List ImpactedItem
  | _, [] => []
  | seen, it :: rest =>
    if it.name ∈ seen then dedupByName seen rest
    else it :: dedupByName (it.name :: seen) rest

/-- `analyze_impact` step 5 before deduplication: KB docs whose recorded
sources intersect the changed files, plus the summary and per-flow docs
when any flow is affected. -/
def affectedKbDocsRaw (kb_outputs : List (String × List String)) (changedFiles : List String)
    (affected_flows : List ImpactedItem) : List ImpactedItem :=
  let changed_file_strs := changedFiles.map normSlash
  let base := kb_outputs.foldl (fun acc p =>
    if p.2.any (fun s => normSlash s ∈ changed_file_strs) then
      acc ++ [⟨p.1, "kb_doc", "direct", "Source files changed", p.1⟩]
    else acc) []
  if affected_flows.isEmpty then base
  else
    let q := String.singleton (Char.ofNat 39)
    (affected_flows.foldl (fun acc fi =>
      acc ++ [⟨fi.file_path, "kb_doc", fi.impact_level,
        "Flow " ++ q ++ fi.name ++ q ++ " affected", fi.file_path⟩])
      (base ++ [⟨"SUMMARY.md", "kb_doc", "direct",
        "Flows changed — summary may need update", "SUMMARY.md"⟩]))

/-- `analyze_impact` step 6 before deduplication: test-layer nodes whose
name contains an impacted class's short name and a test fragment.
(`all_impacted | changed_classes` in the source equals `all_impacted`,
which already contains the changed set.) -/
def affectedTestsRaw (g : DependencyGraph) (changed all_impacted : List String) :
    List ImpactedItem :=
  all_impacted.foldl (fun acc cls_name =>
    match g.lookupNode cls_name with
    | none => acc
    | some node =>
      let short_name := node.class_info.name
      g.nodesList.foldl (fun acc p =>
        if p.2.layer == "Test"
            && strContains p.2.class_info.name short_name
            && (strContains p.2.class_info.name "Test" || strContains p.2.class_info.name "Spec")
        then
          acc ++ [⟨p.2.class_info.name, "test",
            if cls_name ∈ changed then "direct" else "indirect",
            "Tests class: " ++ short_name, p.2.class_info.file_path⟩]
        else acc) acc) []

/-- `ImpactAnalyzer.analyze_impact`.  `kb_outputs` is the analyzer's
`kb_outputs` dict as (kb file, source files) items; `timestamp` abstracts
`get_timestamp()`; the unused `test_map` field is omitted.  When no class
matches a changed file the report is returned immediately with all five
lists empty. -/
def analyze_impact (g : DependencyGraph) (flows : List RequestFlow)
    (kb_outputs : List (String × List String)) (changedFiles : List String)
    (maxDepth : Nat) (timestamp : String) : ImpactReport :=
  let report0 : ImpactReport := { changed_files := changedFiles, timestamp := timestamp }
  let changed := changedClassesOf g changedFiles
  if changed.isEmpty then report0
  else
    let s := computeImpactSets g changed maxDepth
    let all_impacted := unionDedup [changed, s.direct, s.indirect, s.transitive]
    let aff_flows := affectedFlowsOf flows changed s all_impacted
    { report0 with
      affected_classes := affectedClassesOf g changed s
      affected_flows := aff_flows
      affected_endpoints := dedupByName [] (affectedEndpointsRaw flows all_impacted)
      affected_kb_docs := dedupByName [] (affectedKbDocsRaw kb_outputs changedFiles aff_flows)
      affected_tests := dedupByName [] (affectedTestsRaw g changed all_impacted) }

/- ──────────────────────── State tracker ──────────────────────── -/

/-- `FileState` (state/models.py). -/
structure FileState where
  path : String
  sha256 : String
  last_scanned : String
  size_bytes : Nat
deriving DecidableEq, Repr

/-- `ChangeSet` (state/tracker.py). -/
structure ChangeSet where
  added : List String := []
  modified : List String := []
  deleted : List String := []
deriving DecidableEq, Repr

/-- `StateTracker.compute_changes`.  `fingerprint` abstracts
`compute_file_hash` under the current file contents (a SHA-256 hex
digest in the source); `stateFiles` is `state.files` as an association
list; paths are the already-resolved strings the source compares.  The
source's loop appends each current file to `added` when its path is
unknown to the prior state, to `modified` when known with a different
digest; files known to the prior state but absent now form `deleted`. -/
def compute_changes (fingerprint : String → String) (source_files : List String)
    (stateFiles : List (String × FileState)) : ChangeSet :=
  let added := source_files.filter (fun p => (assocFind stateFiles p).isNone)
  let modified := source_files.filter (fun p =>
    match assocFind stateFiles p with
    | some fs => fingerprint p != fs.sha256
    | none => false)
  let deleted := (stateFiles.map (fun p => p.1)).filter (fun p => p ∉ source_files)
  ⟨added, modified, deleted⟩

/-- `StateTracker.update_file_states`: record the current fingerprint
(and size/scan time) of every listed file.  `fileSize` abstracts
`file_path.stat().st_size`, `now` the ISO timestamp. -/
def update_file_states (fingerprint : String → String) (fileSize : String → Nat) (now : String)
    (stateFiles : List (String × FileState)) (files : List String) :
    List (String × FileState) :=
  files.foldl (fun st p =>
    assocInsert st p ⟨p, fingerprint p, now, fileSize p⟩) stateFiles

/- ──────────────────────── Concrete instances ──────────────────────── -/

/-- Scenario class for C2: `CreateOrderCommand`. -/
def createOrderCommandClass : ClassInfo :=
  { name := "CreateOrderCommand", namespaceName := "App.Orders",
    file_path := "src/UseCases/CreateOrderCommand.cs" }

/-- Scenario class for C2: `CreateOrderHandler` implementing
`IRequestHandler<CreateOrderCommand>`. -/
def createOrderHandlerClass : ClassInfo :=
  { name := "CreateOrderHandler", namespaceName := "App.Orders",
    file_path := "src/UseCases/CreateOrderHandler.cs",
    interfaces := ["IRequestHandler<CreateOrderCommand>"] }

/-- The graph of the C2 scenario. -/
def graphC2 : DependencyGraph :=
  build_dependency_graph (fun _ => "") [createOrderCommandClass, createOrderHandlerClass]

/-- Two classes sharing the short name `Request` in different
namespaces, for the C4 fan-out scenario. -/
def requestNs1Class : ClassInfo :=
  { name := "Request", namespaceName := "Ns1", file_path := "src/Ns1/Request.cs" }

/-- Second `Request` class. -/
def requestNs2Class : ClassInfo :=
  { name := "Request", namespaceName := "Ns2", file_path := "src/Ns2/Request.cs" }

/-- A third class whose constructor references the unqualified name
`Request`. -/
def consumerClass : ClassInfo :=
  { name := "Consumer", namespaceName := "Ns3", file_path := "src/Ns3/Consumer.cs",
    constructors := [⟨[⟨"r", "Request"⟩]⟩] }

/-- The graph of the C4 scenario. -/
def graphC4 : DependencyGraph :=
  build_dependency_graph (fun _ => "") [requestNs1Class, requestNs2Class, consumerClass]

/-- Chain for the impact scenarios: `C` is changed, `B` injects `C`,
`X` injects `B` (so `B` is a direct dependent of `C` and `X` is two
hops upstream through `B`). -/
def chainClassC : ClassInfo := { name := "C", namespaceName := "NS", file_path := "src/C.cs" }

/-- `B` injects `C`. -/
def chainClassB : ClassInfo :=
  { name := "B", namespaceName := "NS", file_path := "src/B.cs",
    constructors := [⟨[⟨"c", "C"⟩]⟩] }

/-- `X` injects `B`. -/
def chainClassX : ClassInfo :=
  { name := "X", namespaceName := "NS", file_path := "src/X.cs",
    constructors := [⟨[⟨"b", "B"⟩]⟩] }

/-- The chain graph. -/
def chainGraph : DependencyGraph :=
  build_dependency_graph (fun _ => "") [chainClassC, chainClassB, chainClassX]

/-- A flow through the chain whose only step is the endpoint-role step
on the changed class `NS.C`. -/
def chainFlow : RequestFlow :=
  { name := "Create C", entry_point := "POST /c", steps := [⟨"NS.C", "endpoint", "src/C.cs"⟩] }

/-- Two-node graph for the C5 witness: one `injects` edge `NS.B → NS.A`. -/
def twoNodeGraph : DependencyGraph :=
  build_dependency_graph (fun _ => "")
    [{ name := "A", namespaceName := "NS", file_path := "src/A.cs" },
     { name := "B", namespaceName := "NS", file_path := "src/B.cs",
       constructors := [⟨[⟨"a", "A"⟩]⟩] }]

/-- A graph value in which the node stored under key `NS.M` carries the
full name `NS.F` (the analyzer accepts any graph value; its node dict
is keyed independently of the stored node's own full name).  Chain:
`NS.Y → NS.M → NS.F`. -/
def mismatchedGraph : DependencyGraph :=
  { nodesList := [
      ("NS.Y", ⟨{ name := "Y", namespaceName := "NS", file_path := "src/Y.cs" }, "other", "", ""⟩),
      ("NS.M", ⟨{ name := "F", namespaceName := "NS", file_path := "src/M.cs" }, "other", "", ""⟩),
      ("NS.F", ⟨{ name := "F", namespaceName := "NS", file_path := "src/F.cs" }, "other", "", ""⟩)],
    edges := [⟨"NS.Y", "NS.M", "injects", ""⟩, ⟨"NS.M", "NS.F", "injects", ""⟩],
    interfaceMapPairs := [], shortNamePairs := [] }

/-- A flow item for building concrete reports. -/
def flowItem (n : String) : ImpactedItem := ⟨n, "flow", "direct", "r", ""⟩

/-- Report with no affected flows. -/
def reportZeroFlows : ImpactReport := {}

/-- Report with one affected flow. -/
def reportOneFlow : ImpactReport := { affected_flows := [flowItem "f1"] }

/-- Report with three affected flows. -/
def reportThreeFlows : ImpactReport :=
  { affected_flows := [flowItem "f1", flowItem "f2", flowItem "f3"] }

/-- Report with five affected flows. -/
def reportFiveFlows : ImpactReport :=
  { affected_flows := [flowItem "f1", flowItem "f2", flowItem "f3", flowItem "f4", flowItem "f5"] }

/-- A class whose name ends in `Handler`, which implements a
notification-handler interface, and which also extends a FastEndpoints
base class — so both the handler predicate and the (higher-priority)
endpoint predicate match it. -/
def endpointNotifHandlerClass : ClassInfo :=
  { name := "OrderCreatedHandler", namespaceName := "App",
    file_path := "src/Web/OrderCreatedHandler.cs",
    base_classes := ["Endpoint<OrderRequest>"],
    interfaces := ["INotificationHandler<OrderCreated>"] }

/-- Same class without the endpoint base class. -/
def plainNotifHandlerClass : ClassInfo :=
  { name := "OrderCreatedHandler", namespaceName := "App",
    file_path := "src/App/OrderCreatedHandler.cs",
    interfaces := ["INotificationHandler<OrderCreated>"] }

/- ──────────────────────── Theorems ──────────────────────── -/

/-- Claim C2: in the scenario with `CreateOrderCommand` (classified
role `command`) and `CreateOrderHandler` (classified role `handler`,
implementing an interface whose sole generic argument is the command),
graph construction produces exactly one `handles` edge, from the
handler to the command — even though the naming convention
(`CreateOrder` + `Command`) and the generic-argument heuristic
(`IRequestHandler<CreateOrderCommand>`) both match the pair. -/
theorem c2_single_handles_edge :
    (graphC2.edges.filter (fun e => e.edge_type == "handles")).map
        (fun e => (e.source, e.target))
      = [("App.Orders.CreateOrderHandler", "App.Orders.CreateOrderCommand")]
    ∧ ((graphC2.lookupNode "App.Orders.CreateOrderCommand").map GraphNode.role).getD ""
        = "command"
    ∧ ((graphC2.lookupNode "App.Orders.CreateOrderHandler").map GraphNode.role).getD ""
        = "handler"
    ∧ strReplace "CreateOrderHandler" "Handler" "" ++ "Command" = "CreateOrderCommand"
    ∧ (extractGenericArg "IRequestHandler<CreateOrderCommand>").getD ""
        = "CreateOrderCommand" := by
  exact ⟨by decide, by decide, by decide, by decide, by decide⟩

/-- Claim C4: two classes in different namespaces share the short name
`Request`; `resolve_name "Request"` returns exactly those two full
names, and an `injects` edge built from a third class against the
unqualified reference `Request` fans out into two edges, one per
candidate. -/
theorem c4_ambiguous_shortname_fanout :
    ((graphC4.resolve_name "Request").length = 2
      ∧ "Ns1.Request" ∈ graphC4.resolve_name "Request"
      ∧ "Ns2.Request" ∈ graphC4.resolve_name "Request")
    ∧ ((graphC4.edges.filter
          (fun e => e.source == "Ns3.Consumer" && e.edge_type == "injects")).map
          (fun e => e.target) = ["Ns1.Request", "Ns2.Request"]) := by
  decide

/-- Claim C6: the risk tier is a pure function of the affected-flow
count with tiers 0 → low, 1-2 → medium, 3-4 → high, ≥5 → critical
(so exactly 3 flows reports "high"), and it is monotone in that count
under the severity order low < medium < high < critical. -/
theorem c6_risk_tiers (r r2 : ImpactReport) :
    (r.affected_flows.length = 0 → r.risk_level = "low")
    ∧ (1 ≤ r.affected_flows.length → r.affected_flows.length ≤ 2 → r.risk_level = "medium")
    ∧ (3 ≤ r.affected_flows.length → r.affected_flows.length ≤ 4 → r.risk_level = "high")
    ∧ (5 ≤ r.affected_flows.length → r.risk_level = "critical")
    ∧ (r.affected_flows.length ≤ r2.affected_flows.length →
        riskRank r.risk_level ≤ riskRank r2.risk_level) := by
  refine ⟨?_, ?_, ?_, ?_, ?_⟩
  · intro h
    simp only [ImpactReport.risk_level]
    split_ifs <;> first | rfl | omega
  · intro h1 h2
    simp only [ImpactReport.risk_level]
    split_ifs <;> first | rfl | omega
  · intro h1 h2
    simp only [ImpactReport.risk_level]
    split_ifs <;> first | rfl | omega
  · intro h
    simp only [ImpactReport.risk_level]
    split_ifs <;> first | rfl | omega
  · intro h
    simp only [ImpactReport.risk_level]
    split_ifs <;> first | decide | (exfalso; omega)

/-- Witness for C6 at concrete reports with 0, 1, 3 and 5 affected
flows. -/
theorem c6_risk_tiers_witness :
    reportZeroFlows.risk_level = "low"
    ∧ reportOneFlow.risk_level = "medium"
    ∧ reportThreeFlows.risk_level = "high"
    ∧ reportFiveFlows.risk_level = "critical"
    ∧ riskRank reportThreeFlows.risk_level ≤ riskRank reportFiveFlows.risk_level :=
  ⟨(c6_risk_tiers reportZeroFlows reportZeroFlows).1 (by decide),
   (c6_risk_tiers reportOneFlow reportOneFlow).2.1 (by decide) (by decide),
   (c6_risk_tiers reportThreeFlows reportThreeFlows).2.2.1 (by decide) (by decide),
   (c6_risk_tiers reportFiveFlows reportFiveFlows).2.2.2.1 (by decide),
   (c6_risk_tiers reportThreeFlows reportFiveFlows).2.2.2.2 (by decide)⟩

/-- Counterexample to claim C8 as stated: this class's name ends in
`Handler` and it implements a notification-handler interface, yet
`_classify_role` returns `endpoint`, not `handler`, because the
higher-priority endpoint predicate also matches (its base class
contains `Endpoint`). -/
theorem c8_priority_overrides_handler_cex :
    strEndsWith endpointNotifHandlerClass.name "Handler" = true
    ∧ (∃ i ∈ endpointNotifHandlerClass.interfaces, strContains i "NotificationHandler" = true)
    ∧ classify_role endpointNotifHandlerClass = "endpoint"
    ∧ classify_role endpointNotifHandlerClass ≠ "handler" := by
  decide

/-- Claim C8 (amended): classification is first-match-wins in the fixed
priority order, so a class whose name ends in `Handler` and which also
implements a notification-handler interface is classified `handler`
(never `event_handler`) provided no higher-priority predicate
(endpoint, command, query) matches it. -/
theorem c8_handler_beats_event_handler (c : ClassInfo)
    (hname : strEndsWith c.name "Handler" = true)
    (hnotif : ∃ i ∈ c.interfaces, strContains i "NotificationHandler" = true)
    (hep : detect_endpoint c = false)
    (hcmd : detect_command c = false)
    (hq : detect_query c = false) :
    classify_role c = "handler" ∧ classify_role c ≠ "event_handler" := by
  have hh : detect_handler c = true := by
    unfold detect_handler
    rw [hname]
    simp
  have hc : classify_role c = "handler" := by
    unfold classify_role
    rw [hep, hcmd, hq, hh]
    simp
  exact ⟨hc, by rw [hc]; decide⟩

/-- Witness for C8 at a concrete notification-handling class with no
higher-priority match. -/
theorem c8_handler_beats_event_handler_witness :
    classify_role plainNotifHandlerClass = "handler"
    ∧ classify_role plainNotifHandlerClass ≠ "event_handler" :=
  c8_handler_beats_event_handler plainNotifHandlerClass (by decide) (by decide) (by decide)
    (by decide) (by decide)

/-- Unfolding `assocFind` on a cons cell. -/
theorem assocFind_cons {α : Type} (a : String) (b : α) (t : List (String × α)) (q : String) :
    assocFind ((a, b) :: t) q = if a = q then some b else assocFind t q := by
  by_cases h : a = q
  · subst h
    simp [assocFind, List.find?]
  · simp only [assocFind, List.find?]
    have hb : (a == q) = false := by
      simp only [beq_eq_false_iff_ne, ne_eq]
      exact h
    rw [hb, if_neg h]

/-- `assocInsert` on a cons cell whose key already matches. -/
theorem assocInsert_cons_hit {α : Type} (k : String) (v0 v : α) (t : List (String × α)) :
    assocInsert ((k, v0) :: t) k v = (k, v) :: t := by
  simp [assocInsert]

/-- `assocInsert` on a cons cell with a different key. -/
theorem assocInsert_cons_miss {α : Type} (k0 k : String) (v0 : α) (v : α)
    (t : List (String × α)) (h : k0 ≠ k) :
    assocInsert ((k0, v0) :: t) k v = (k0, v0) :: assocInsert t k v := by
  simp [assocInsert, h]

/-- `assocFind` after `assocInsert`: the inserted key maps to the new
value, every other key is unchanged. -/
theorem assocFind_assocInsert {α : Type} (l : List (String × α)) (k : String) (v : α)
    (q : String) :
    assocFind (assocInsert l k v) q = if q = k then some v else assocFind l q := by
  induction l with
  | nil =>
    show assocFind [(k, v)] q = if q = k then some v else assocFind [] q
    rw [assocFind_cons]
    by_cases h : q = k
    · subst h
      simp
    · rw [if_neg (fun hh => h hh.symm), if_neg h]
  | cons hd tl ih =>
    obtain ⟨k0, v0⟩ := hd
    by_cases hk : k0 = k
    · subst hk
      rw [assocInsert_cons_hit, assocFind_cons, assocFind_cons]
      by_cases hq : q = k0
      · subst hq
        simp
      · rw [if_neg (fun hh => hq hh.symm), if_neg hq, if_neg (fun hh => hq hh.symm)]
    · rw [assocInsert_cons_miss k0 k v0 v tl hk, assocFind_cons, assocFind_cons, ih]
      by_cases hq : k0 = q
      · have hqk : ¬q = k := by
          intro hh
          exact hk (hq.trans hh)
        rw [if_pos hq, if_neg hqk, if_pos hq]
      · rw [if_neg hq, if_neg hq]

/-- `assocFind` after `update_file_states`: every listed file maps to a
freshly fingerprinted record, everything else is untouched. -/
theorem assocFind_update_file_states (fp : String → String) (sz : String → Nat) (now : String) :
    ∀ (files : List String) (st : List (String × FileState)) (x : String),
      assocFind (update_file_states fp sz now st files) x
        = if x ∈ files then some ⟨x, fp x, now, sz x⟩ else assocFind st x := by
  intro files
  induction files with
  | nil =>
    intro st x
    simp [update_file_states]
  | cons f rest ih =>
    intro st x
    show assocFind
        (update_file_states fp sz now (assocInsert st f ⟨f, fp f, now, sz f⟩) rest) x = _
    rw [ih]
    by_cases hr : x ∈ rest
    · rw [if_pos hr, if_pos (by simp [hr])]
    · rw [if_neg hr, assocFind_assocInsert]
      by_cases hf : x = f
      · subst hf
        rw [if_pos rfl, if_pos (by simp)]
      · rw [if_neg hf, if_neg (by simp [hf, hr])]

/-- Claim C7: change classification and its round trip.  A current file
unknown to the prior state is classified added (and only added); one
known with a differing fingerprint is classified modified (and only
modified); one known but no longer present is classified deleted (and
only deleted).  Re-scanning after persisting the state with an
unchanged fingerprint puts the file in none of the three lists, and
re-scanning with a changed fingerprint (no collision: the digests
differ) puts it exactly in the modified list. -/
theorem c7_change_classification_roundtrip
    (fp fp2 : String → String) (sz : String → Nat) (now : String)
    (files : List String) (state : List (String × FileState)) (p : String) :
    (p ∈ files → assocFind state p = none →
      p ∈ (compute_changes fp files state).added
      ∧ p ∉ (compute_changes fp files state).modified
      ∧ p ∉ (compute_changes fp files state).deleted)
    ∧ (∀ fs : FileState, p ∈ files → assocFind state p = some fs → fp p ≠ fs.sha256 →
      p ∈ (compute_changes fp files state).modified
      ∧ p ∉ (compute_changes fp files state).added
      ∧ p ∉ (compute_changes fp files state).deleted)
    ∧ (p ∉ files → p ∈ state.map Prod.fst →
      p ∈ (compute_changes fp files state).deleted
      ∧ p ∉ (compute_changes fp files state).added
      ∧ p ∉ (compute_changes fp files state).modified)
    ∧ (p ∈ files →
      p ∉ (compute_changes fp files (update_file_states fp sz now state files)).added
      ∧ p ∉ (compute_changes fp files (update_file_states fp sz now state files)).modified
      ∧ p ∉ (compute_changes fp files (update_file_states fp sz now state files)).deleted)
    ∧ (p ∈ files → fp2 p ≠ fp p →
      p ∈ (compute_changes fp2 files (update_file_states fp sz now state files)).modified
      ∧ p ∉ (compute_changes fp2 files (update_file_states fp sz now state files)).added
      ∧ p ∉ (compute_changes fp2 files (update_file_states fp sz now state files)).deleted) := by
  refine ⟨?_, ?_, ?_, ?_, ?_⟩
  · intro hf hn
    refine ⟨?_, ?_, ?_⟩
    · simp [compute_changes, List.mem_filter, hf, hn]
    · simp [compute_changes, List.mem_filter, hn]
    · simp [compute_changes, List.mem_filter, hf]
  · intro fs hf hs hne
    refine ⟨?_, ?_, ?_⟩
    · simp [compute_changes, List.mem_filter, hf, hs, bne_iff_ne, hne]
    · simp [compute_changes, List.mem_filter, hs]
    · simp [compute_changes, List.mem_filter, hf]
  · intro hf hk
    refine ⟨?_, ?_, ?_⟩
    · simp [compute_changes, List.mem_filter, hf, hk]
    · simp [compute_changes, List.mem_filter, hf]
    · simp [compute_changes, List.mem_filter, hf]
  · intro hf
    have hl := assocFind_update_file_states fp sz now files state p
    rw [if_pos hf] at hl
    refine ⟨?_, ?_, ?_⟩
    · simp [compute_changes, List.mem_filter, hl]
    · simp [compute_changes, List.mem_filter, hl]
    · simp [compute_changes, List.mem_filter, hf]
  · intro hf hne
    have hl := assocFind_update_file_states fp sz now files state p
    rw [if_pos hf] at hl
    refine ⟨?_, ?_, ?_⟩
    · simp [compute_changes, List.mem_filter, hf, hl, bne_iff_ne, hne]
    · simp [compute_changes, List.mem_filter, hl]
    · simp [compute_changes, List.mem_filter, hf]

/-- Witness for C7: each clause applied at a concrete file set, state
and fingerprint functions. -/
theorem c7_change_classification_roundtrip_witness :
    ("a.cs" ∈ (compute_changes (fun _ => "d1") ["a.cs"] []).added)
    ∧ ("a.cs" ∈ (compute_changes (fun _ => "d1") ["a.cs"]
        [("a.cs", ⟨"a.cs", "old", "t0", 1⟩)]).modified)
    ∧ ("b.cs" ∈ (compute_changes (fun _ => "d1") []
        [("b.cs", ⟨"b.cs", "old", "t0", 1⟩)]).deleted)
    ∧ ("a.cs" ∉ (compute_changes (fun _ => "d1") ["a.cs"]
        (update_file_states (fun _ => "d1") (fun _ => 1) "t1" [] ["a.cs"])).modified)
    ∧ ("a.cs" ∈ (compute_changes (fun _ => "d2") ["a.cs"]
        (update_file_states (fun _ => "d1") (fun _ => 1) "t1" [] ["a.cs"])).modified) :=
  ⟨((c7_change_classification_roundtrip (fun _ => "d1") (fun _ => "d1") (fun _ => 1) "t1"
      ["a.cs"] [] "a.cs").1 (by decide) rfl).1,
   ((c7_change_classification_roundtrip (fun _ => "d1") (fun _ => "d1") (fun _ => 1) "t1"
      ["a.cs"] [("a.cs", ⟨"a.cs", "old", "t0", 1⟩)] "a.cs").2.1
      ⟨"a.cs", "old", "t0", 1⟩ (by decide) rfl (by decide)).1,
   ((c7_change_classification_roundtrip (fun _ => "d1") (fun _ => "d1") (fun _ => 1) "t1"
      [] [("b.cs", ⟨"b.cs", "old", "t0", 1⟩)] "b.cs").2.2.1 (by decide) (by decide)).1,
   ((c7_change_classification_roundtrip (fun _ => "d1") (fun _ => "d1") (fun _ => 1) "t1"
      ["a.cs"] [] "a.cs").2.2.2.1 (by decide)).2.1,
   ((c7_change_classification_roundtrip (fun _ => "d1") (fun _ => "d2") (fun _ => 1) "t1"
      ["a.cs"] [] "a.cs").2.2.2.2 (by decide) (by decide)).1⟩

/-- Fold induction: a property preserved by every step holds of the
fold result. -/
theorem foldl_rec {α β : Type} (f : β → α → β) (P : β → Prop) :
    ∀ (l : List α) (b : β), P b → (∀ b a, a ∈ l → P b → P (f b a)) → P (l.foldl f b) := by
  intro l
  induction l with
  | nil =>
    intro b hb _
    exact hb
  | cons a t ih =>
    intro b hb hstep
    exact ih (f b a) (hstep b a (List.mem_cons_self a t) hb)
      (fun b' a' ha' hb' => hstep b' a' (List.mem_cons_of_mem a ha') hb')

/-- If no node's file path matches any changed file, step 1 of
`analyze_impact` finds no changed classes. -/
theorem changedClassesOf_eq_nil (g : DependencyGraph) (files : List String)
    (h : ∀ p ∈ g.nodesList, ∀ f ∈ files, pathMatches p.2.class_info.file_path f = false) :
    changedClassesOf g files = [] := by
  unfold changedClassesOf
  refine foldl_rec _ (fun acc => acc = []) files [] rfl ?_
  intro acc f hf hacc
  subst hacc
  refine foldl_rec _ (fun acc => acc = []) g.nodesList [] rfl ?_
  intro acc p hp hacc
  subst hacc
  rw [h p hp f hf]
  simp

/-- Claim C9: when no node's declaring file path equals, is a suffix
of, or has as a suffix any changed-file path (separator-normalised),
`analyze_impact` returns a report whose five affected-item lists are
all empty (the no-impact early return; the function is total, so no
error is raised). -/
theorem c9_no_match_empty_report (g : DependencyGraph) (flows : List RequestFlow)
    (kb_outputs : List (String × List String)) (files : List String) (maxDepth : Nat)
    (ts : String)
    (h : ∀ p ∈ g.nodesList, ∀ f ∈ files, pathMatches p.2.class_info.file_path f = false) :
    (analyze_impact g flows kb_outputs files maxDepth ts).affected_classes = []
    ∧ (analyze_impact g flows kb_outputs files maxDepth ts).affected_flows = []
    ∧ (analyze_impact g flows kb_outputs files maxDepth ts).affected_endpoints = []
    ∧ (analyze_impact g flows kb_outputs files maxDepth ts).affected_kb_docs = []
    ∧ (analyze_impact g flows kb_outputs files maxDepth ts).affected_tests = [] := by
  have hc : changedClassesOf g files = [] := changedClassesOf_eq_nil g files h
  simp [analyze_impact, hc]

/-- Witness for C9: the chain graph with a changed file that matches no
node. -/
theorem c9_no_match_empty_report_witness :
    (analyze_impact chainGraph [chainFlow] [] ["docs/readme.md"] 5 "t").affected_classes = []
    ∧ (analyze_impact chainGraph [chainFlow] [] ["docs/readme.md"] 5 "t").affected_flows = []
    ∧ (analyze_impact chainGraph [chainFlow] [] ["docs/readme.md"] 5 "t").affected_endpoints = []
    ∧ (analyze_impact chainGraph [chainFlow] [] ["docs/readme.md"] 5 "t").affected_kb_docs = []
    ∧ (analyze_impact chainGraph [chainFlow] [] ["docs/readme.md"] 5 "t").affected_tests = [] :=
  c9_no_match_empty_report chainGraph [chainFlow] [] ["docs/readme.md"] 5 "t" (by decide)

/-- Deduplication only drops items: membership after implies membership
before. -/
theorem mem_of_mem_dedupByName :
    ∀ (l : List ImpactedItem) (seen : List String) (x : ImpactedItem),
      x ∈ dedupByName seen l → x ∈ l := by
  intro l
  induction l with
  | nil =>
    intro seen x hx
    simp [dedupByName] at hx
  | cons it rest ih =>
    intro seen x hx
    by_cases hseen : it.name ∈ seen
    · simp only [dedupByName, if_pos hseen] at hx
      exact List.mem_cons_of_mem it (ih seen x hx)
    · simp only [dedupByName, if_neg hseen] at hx
      rcases List.mem_cons.mp hx with h | h
      · exact h ▸ List.mem_cons_self it rest
      · exact List.mem_cons_of_mem it (ih (it.name :: seen) x h)

/-- Every item produced by step 4 of `analyze_impact` carries the
literal tier "indirect". -/
theorem affectedEndpointsRaw_level (flows : List RequestFlow) (imp : List String) :
    ∀ x ∈ affectedEndpointsRaw flows imp, x.impact_level = "indirect" := by
  unfold affectedEndpointsRaw
  refine foldl_rec _ (fun (acc : List ImpactedItem) => ∀ x ∈ acc, x.impact_level = "indirect")
    flows [] ?_ ?_
  · intro x hx
    simp at hx
  · intro acc flow hflow hacc
    refine foldl_rec _ (fun (acc : List ImpactedItem) => ∀ x ∈ acc, x.impact_level = "indirect")
      _ acc hacc ?_
    intro acc2 ep hep hacc2 x hx
    by_cases hhit : (flow.steps.map (fun st => st.class_name)).any (fun c => c ∈ imp)
    · rw [if_pos hhit] at hx
      rcases List.mem_append.mp hx with h | h
      · exact hacc2 x h
      · rw [List.mem_singleton.mp h]
    · rw [if_neg hhit] at hx
      exact hacc2 x hx

/-- Claim C10: every item in `affected_endpoints` of any report
produced by `analyze_impact` carries impact tier "indirect", whatever
the tier of its flow and even when the endpoint class itself is in the
changed or direct set. -/
theorem c10_endpoints_always_indirect (g : DependencyGraph) (flows : List RequestFlow)
    (kb_outputs : List (String × List String)) (files : List String) (maxDepth : Nat)
    (ts : String) :
    ∀ it ∈ (analyze_impact g flows kb_outputs files maxDepth ts).affected_endpoints,
      it.impact_level = "indirect" := by
  intro it hit
  simp only [analyze_impact] at hit
  by_cases hc : (changedClassesOf g files).isEmpty
  · rw [if_pos hc] at hit
    simp at hit
  · rw [if_neg hc] at hit
    exact affectedEndpointsRaw_level flows _ it (mem_of_mem_dedupByName _ _ it hit)

/-- Witness for C10: in the chain scenario the changed class `NS.C` is
itself the endpoint step of the affected flow, yet its endpoint item is
tiered "indirect". -/
theorem c10_endpoints_always_indirect_witness :
    (analyze_impact chainGraph [chainFlow] [] ["src/C.cs"] 5 "t").affected_endpoints
      = [⟨"NS.C", "endpoint", "indirect", "Endpoint for flow: Create C (POST /c)", "src/C.cs"⟩]
    ∧ (⟨"NS.C", "endpoint", "indirect", "Endpoint for flow: Create C (POST /c)",
        "src/C.cs"⟩ : ImpactedItem).impact_level = "indirect" := by
  have heq : (analyze_impact chainGraph [chainFlow] [] ["src/C.cs"] 5 "t").affected_endpoints
      = [⟨"NS.C", "endpoint", "indirect", "Endpoint for flow: Create C (POST /c)",
          "src/C.cs"⟩] := rfl
  exact ⟨heq, c10_endpoints_always_indirect chainGraph [chainFlow] [] ["src/C.cs"] 5 "t" _
    (heq ▸ List.mem_singleton.mpr rfl)⟩

/-- Termination of the `get_all_upstream` BFS loop: with fuel strictly
above the loop measure
`(|edges|+1) · |targets not yet visited| + |queue|`, the loop reaches
the empty queue (never the fuel-exhausted `none`).  Skipping an entry
shrinks the queue; visiting a node with incoming edges removes its
target from the unvisited-target count, which pays for the at most
`|edges|` entries appended; a node with no incoming edges appends
nothing.  This holds for every graph, cyclic ones included. -/
theorem bfsUpstream_some (edges : List GraphEdge) (maxDepth : Nat) :
    ∀ (fuel : Nat) (visited : List String) (queue : List (String × Nat)),
      (edges.length + 1) * ((edges.map (fun e => e.target)).toFinset \ visited.toFinset).card
          + queue.length < fuel →
      (bfsUpstream edges maxDepth fuel visited queue).isSome := by
  intro fuel
  induction fuel with
  | zero =>
    intro visited queue h
    omega
  | succ n ih =>
    intro visited queue h
    match queue with
    | [] => simp [bfsUpstream]
    | (current, depth) :: rest =>
      simp only [bfsUpstream]
      by_cases hskip : current ∈ visited ∨ depth > maxDepth
      · rw [if_pos hskip]
        apply ih
        simp only [List.length_cons] at h
        omega
      · rw [if_neg hskip]
        apply ih
        have hnv : current ∉ visited := fun hc => hskip (Or.inl hc)
        have happ :
            (((edges.filter (fun e => e.target == current)).filter
              (fun e => !((visited ++ [current]).contains e.source))).map
                (fun e => (e.source, depth + 1))).length ≤ edges.length := by
          rw [List.length_map]
          exact le_trans (List.length_filter_le _ _) (List.length_filter_le _ _)
        have hins : (visited ++ [current]).toFinset = insert current visited.toFinset := by
          ext z
          simp [or_comm]
        by_cases hct : current ∈ (edges.map (fun e => e.target)).toFinset
        · have herase :
              (edges.map (fun e => e.target)).toFinset \ (visited ++ [current]).toFinset
                = ((edges.map (fun e => e.target)).toFinset \ visited.toFinset).erase current := by
            rw [hins]
            ext z
            simp only [Finset.mem_sdiff, Finset.mem_insert, Finset.mem_erase]
            tauto
          have hmem : current ∈ (edges.map (fun e => e.target)).toFinset \ visited.toFinset := by
            rw [Finset.mem_sdiff]
            exact ⟨hct, fun hc => hnv (List.mem_toFinset.mp hc)⟩
          have hcard :
              (((edges.map (fun e => e.target)).toFinset \ visited.toFinset).erase current).card
                + 1
              = ((edges.map (fun e => e.target)).toFinset \ visited.toFinset).card := by
            rw [Finset.card_erase_of_mem hmem]
            have : 0 < ((edges.map (fun e => e.target)).toFinset \ visited.toFinset).card :=
              Finset.card_pos.mpr ⟨current, hmem⟩
            omega
          rw [herase]
          have hmul :
              (edges.length + 1)
                  * ((edges.map (fun e => e.target)).toFinset \ visited.toFinset).card
                = (edges.length + 1)
                  * (((edges.map (fun e => e.target)).toFinset \ visited.toFinset).erase
                      current).card
                  + (edges.length + 1) := by
            rw [← hcard]
            ring
          simp only [List.length_append, List.length_cons] at h ⊢
          omega
        · have hfilter : edges.filter (fun e => e.target == current) = [] := by
            apply List.filter_eq_nil_iff.mpr
            intro e he
            simp only [beq_eq_false_iff_ne, ne_eq, Bool.not_eq_true]
            intro hc
            exact hct (List.mem_toFinset.mpr (List.mem_map.mpr ⟨e, he, hc⟩))
          have hsd :
              (edges.map (fun e => e.target)).toFinset \ (visited ++ [current]).toFinset
                = (edges.map (fun e => e.target)).toFinset \ visited.toFinset := by
            rw [hins]
            ext z
            simp only [Finset.mem_sdiff, Finset.mem_insert]
            constructor
            · rintro ⟨hz, hz2⟩
              exact ⟨hz, fun hzz => hz2 (Or.inr hzz)⟩
            · rintro ⟨hz, hz2⟩
              refine ⟨hz, ?_⟩
              rintro (rfl | hzz)
              · exact hct hz
              · exact hz2 hzz
          rw [hfilter, hsd]
          simp only [List.filter_nil, List.map_nil, List.append_nil, List.length_cons] at h ⊢
          omega

/-- Soundness of the BFS: every visited node is reached by a reversed
chain of at most `maxDepth` edges from the start. -/
theorem bfsUpstream_sound (edges : List GraphEdge) (maxDepth : Nat) (x : String) :
    ∀ (fuel : Nat) (visited : List String) (queue : List (String × Nat)) (res : List String),
      bfsUpstream edges maxDepth fuel visited queue = some res →
      (∀ v ∈ visited, ∃ k, k ≤ maxDepth ∧ UpPath edges x v k) →
      (∀ q ∈ queue, UpPath edges x q.1 q.2) →
      ∀ v ∈ res, ∃ k, k ≤ maxDepth ∧ UpPath edges x v k := by
  intro fuel
  induction fuel with
  | zero =>
    intro visited queue res h hv hq
    simp [bfsUpstream] at h
  | succ n ih =>
    intro visited queue res h hv hq
    match queue with
    | [] =>
      simp only [bfsUpstream, Option.some.injEq] at h
      subst h
      exact hv
    | (current, depth) :: rest =>
      simp only [bfsUpstream] at h
      by_cases hskip : current ∈ visited ∨ depth > maxDepth
      · rw [if_pos hskip] at h
        exact ih visited rest res h hv (fun q hq' => hq q (List.mem_cons_of_mem _ hq'))
      · rw [if_neg hskip] at h
        have hd : depth ≤ maxDepth := by
          rcases le_or_lt depth maxDepth with h1 | h1
          · exact h1
          · exact absurd (Or.inr h1) hskip
        have hcur : UpPath edges x current depth := hq (current, depth) (List.mem_cons_self _ _)
        apply ih _ _ res h
        · intro v hv'
          rcases List.mem_append.mp hv' with h1 | h1
          · exact hv v h1
          · rw [List.mem_singleton.mp h1]
            exact ⟨depth, hd, hcur⟩
        · intro q hq'
          rcases List.mem_append.mp hq' with h1 | h1
          · exact hq q (List.mem_cons_of_mem _ h1)
          · simp only [List.mem_map, List.mem_filter] at h1
            obtain ⟨e, ⟨⟨he, het⟩, _⟩, hqe⟩ := h1
            rw [← hqe]
            exact UpPath.step e he (beq_iff_eq.mp het) hcur

/-- Claim C5: for every graph, node `X` and depth bound `d`,
`get_all_upstream X d` terminates — the fuelled BFS reaches the empty
queue within `upstreamFuel`, on cyclic graphs too — and its result
never contains `X` itself nor any node whose minimum reversed-edge hop
distance from `X` exceeds `d` (each member is reached by some reversed
chain of length at most `d`). -/
theorem c5_upstream_bounded_terminates (g : DependencyGraph) (X : String) (d : Nat) :
    (bfsUpstream g.edges d (upstreamFuel g.edges) [] [(X, 0)]).isSome
    ∧ ∀ y ∈ g.get_all_upstream X d, y ≠ X ∧ ∃ k, k ≤ d ∧ UpPath g.edges X y k := by
  have hcard :
      ((g.edges.map (fun e => e.target)).toFinset \ ([] : List String).toFinset).card
        ≤ g.edges.length := by
    simp only [List.toFinset_nil, Finset.sdiff_empty]
    exact le_trans (List.toFinset_card_le _) (by rw [List.length_map])
  have hmeasure :
      (g.edges.length + 1)
          * ((g.edges.map (fun e => e.target)).toFinset \ ([] : List String).toFinset).card
          + ([(X, 0)] : List (String × Nat)).length < upstreamFuel g.edges := by
    have h1 : (g.edges.length + 1)
          * ((g.edges.map (fun e => e.target)).toFinset \ ([] : List String).toFinset).card
        ≤ (g.edges.length + 1) * g.edges.length := Nat.mul_le_mul_left _ hcard
    have h2 : (g.edges.length + 1) * g.edges.length
        ≤ (g.edges.length + 1) * (g.edges.length + 1) :=
      Nat.mul_le_mul_left _ (Nat.le_succ _)
    simp only [upstreamFuel, List.length_cons, List.length_nil]
    omega
  have hsome := bfsUpstream_some g.edges d (upstreamFuel g.edges) [] [(X, 0)] hmeasure
  refine ⟨hsome, ?_⟩
  intro y hy
  obtain ⟨res, hres⟩ := Option.isSome_iff_exists.mp hsome
  unfold DependencyGraph.get_all_upstream at hy
  rw [hres] at hy
  simp only [Option.getD_some] at hy
  rw [List.mem_filter] at hy
  obtain ⟨hyres, hyne⟩ := hy
  refine ⟨by simpa using hyne, ?_⟩
  refine bfsUpstream_sound g.edges d X (upstreamFuel g.edges) [] [(X, 0)] res hres ?_ ?_ y hyres
  · intro v hv
    simp at hv
  · intro q hq
    rw [List.mem_singleton.mp hq]
    exact UpPath.refl

/-- Witness for C5 on the two-node graph: `NS.B` is upstream of `NS.A`
within depth 10, differs from the origin, and is reached by a reversed
chain of length at most 10. -/
theorem c5_upstream_bounded_terminates_witness :
    "NS.B" ∈ twoNodeGraph.get_all_upstream "NS.A" 10
    ∧ ("NS.B" ≠ "NS.A" ∧ ∃ k, k ≤ 10 ∧ UpPath twoNodeGraph.edges "NS.A" "NS.B" k) :=
  ⟨by decide, (c5_upstream_bounded_terminates twoNodeGraph "NS.A" 10).2 "NS.B" (by decide)⟩

/-- Membership after `assocInsert`: either an old pair or the inserted
one. -/
theorem mem_assocInsert {α : Type} :
    ∀ (l : List (String × α)) (k : String) (v : α) (p : String × α),
      p ∈ assocInsert l k v → p ∈ l ∨ p = (k, v) := by
  intro l k v
  induction l with
  | nil =>
    intro p hp
    simp only [assocInsert] at hp
    exact Or.inr (List.mem_singleton.mp hp)
  | cons hd tl ih =>
    intro p hp
    obtain ⟨k0, v0⟩ := hd
    by_cases hk : k0 = k
    · simp only [assocInsert, if_pos hk] at hp
      rcases List.mem_cons.mp hp with h | h
      · exact Or.inr h
      · exact Or.inl (List.mem_cons_of_mem _ h)
    · simp only [assocInsert, if_neg hk] at hp
      rcases List.mem_cons.mp hp with h | h
      · exact Or.inl (h ▸ List.mem_cons_self _ _)
      · rcases ih p h with h1 | h1
        · exact Or.inl (List.mem_cons_of_mem _ h1)
        · exact Or.inr h1

/-- Keys after `assocInsert`: old keys plus possibly the new one. -/
theorem keys_assocInsert_sub {α : Type} (l : List (String × α)) (k : String) (v : α)
    (x : String) :
    x ∈ (assocInsert l k v).map Prod.fst → x ∈ l.map Prod.fst ∨ x = k := by
  intro hx
  rcases List.mem_map.mp hx with ⟨p, hp, hfx⟩
  rcases mem_assocInsert l k v p hp with h | h
  · exact Or.inl (List.mem_map.mpr ⟨p, h, hfx⟩)
  · subst h
    exact Or.inr hfx.symm

/-- `assocInsert` preserves key distinctness. -/
theorem assocInsert_keys_nodup {α : Type} :
    ∀ (l : List (String × α)) (k : String) (v : α),
      (l.map Prod.fst).Nodup → ((assocInsert l k v).map Prod.fst).Nodup := by
  intro l k v
  induction l with
  | nil =>
    intro _
    simp [assocInsert]
  | cons hd tl ih =>
    intro hnd
    obtain ⟨k0, v0⟩ := hd
    simp only [List.map_cons, List.nodup_cons] at hnd
    obtain ⟨hk0, htl⟩ := hnd
    by_cases hk : k0 = k
    · subst hk
      rw [assocInsert_cons_hit]
      simp only [List.map_cons, List.nodup_cons]
      exact ⟨hk0, htl⟩
    · simp only [assocInsert, if_neg hk, List.map_cons, List.nodup_cons]
      refine ⟨?_, ih htl⟩
      intro hmem
      rcases keys_assocInsert_sub tl k v k0 hmem with h | h
      · exact hk0 h
      · exact hk h

/-- With distinct keys, a key determines its value. -/
theorem mem_keys_unique {α : Type} :
    ∀ (l : List (String × α)), (l.map Prod.fst).Nodup →
      ∀ (k : String) (a b : α), (k, a) ∈ l → (k, b) ∈ l → a = b := by
  intro l
  induction l with
  | nil =>
    intro _ k a b ha _
    simp at ha
  | cons hd tl ih =>
    intro hnd k a b ha hb
    simp only [List.map_cons, List.nodup_cons] at hnd
    obtain ⟨hni, hntl⟩ := hnd
    rcases List.mem_cons.mp ha with h1 | h1 <;> rcases List.mem_cons.mp hb with h2 | h2
    · rw [← h1] at h2
      exact (Prod.mk.injEq k a k b).mp h2.symm |>.2
    · exfalso
      apply hni
      rw [← h1]
      exact List.mem_map.mpr ⟨(k, b), h2, rfl⟩
    · exfalso
      apply hni
      rw [← h2]
      exact List.mem_map.mpr ⟨(k, a), h1, rfl⟩
    · exact ih hntl k a b h1 h2

/-- `assocFind` success implies pair membership. -/
theorem assocFind_mem {α : Type} (l : List (String × α)) (k : String) (v : α)
    (h : assocFind l k = some v) : (k, v) ∈ l := by
  unfold assocFind at h
  rcases hf : List.find? (fun p => p.1 == k) l with _ | p
  · rw [hf] at h
    simp at h
  · rw [hf] at h
    simp only [Option.map_some'] at h
    have hmem := List.mem_of_find?_eq_some hf
    have hpred := List.find?_some hf
    obtain ⟨p1, p2⟩ := p
    have hk : p1 = k := by
      simpa using hpred
    have hv : p2 = v := by
      simpa using h
    subst hk
    subst hv
    exact hmem

/-- Step 1 invariants: every key is its node's full name, keys are
distinct, and there are no edges yet. -/
theorem buildStep1_wf (pf : ClassInfo → String) (cs : List ClassInfo) :
    (∀ p ∈ (buildStep1 pf cs).nodesList, p.1 = p.2.class_info.full_name)
    ∧ ((buildStep1 pf cs).nodesList.map Prod.fst).Nodup
    ∧ (buildStep1 pf cs).edges = [] := by
  unfold buildStep1
  refine foldl_rec _ (fun (g : DependencyGraph) =>
    (∀ p ∈ g.nodesList, p.1 = p.2.class_info.full_name)
    ∧ (g.nodesList.map Prod.fst).Nodup ∧ g.edges = []) cs _ ?_ ?_
  · refine ⟨?_, by simp, rfl⟩
    intro p hp
    simp at hp
  · intro g cls _ hg
    obtain ⟨hwf, hnd, hed⟩ := hg
    refine ⟨?_, assocInsert_keys_nodup _ _ _ hnd, hed⟩
    intro p hp
    rcases mem_assocInsert _ _ _ p hp with h | h
    · exact hwf p h
    · rw [h]

/-- Step 2 touches only the interface map. -/
theorem buildStep2_pres (cs : List ClassInfo) (g1 : DependencyGraph) :
    (buildStep2 cs g1).nodesList = g1.nodesList ∧ (buildStep2 cs g1).edges = g1.edges := by
  unfold buildStep2
  refine foldl_rec _ (fun (g : DependencyGraph) =>
    g.nodesList = g1.nodesList ∧ g.edges = g1.edges) cs g1 ⟨rfl, rfl⟩ ?_
  intro g cls _ hg
  refine foldl_rec _ (fun (g : DependencyGraph) =>
    g.nodesList = g1.nodesList ∧ g.edges = g1.edges) cls.interfaces g hg ?_
  intro h iface _ hh
  refine foldl_rec _ (fun (g : DependencyGraph) =>
    g.nodesList = g1.nodesList ∧ g.edges = g1.edges) _ h hh ?_
  intro h2 full _ hh2
  exact hh2

/-- `_add_resolved_edge` keeps the node list and adds only
non-self-loop edges. -/
theorem addResolvedEdge_pres (g : DependencyGraph) (src tn ty lbl : String) :
    (addResolvedEdge g src tn ty lbl).nodesList = g.nodesList
    ∧ ∀ e ∈ (addResolvedEdge g src tn ty lbl).edges, e ∈ g.edges ∨ e.source ≠ e.target := by
  unfold addResolvedEdge
  refine foldl_rec _ (fun (h : DependencyGraph) =>
    h.nodesList = g.nodesList ∧ ∀ e ∈ h.edges, e ∈ g.edges ∨ e.source ≠ e.target) _ g
    ⟨rfl, fun e he => Or.inl he⟩ ?_
  intro h full _ hh
  by_cases hne : full ≠ src
  · rw [if_pos hne]
    refine ⟨hh.1, ?_⟩
    intro e he
    rcases List.mem_append.mp he with h1 | h1
    · exact hh.2 e h1
    · right
      rw [List.mem_singleton.mp h1]
      exact fun hc => hne ((show src = full from hc).symm)
  · rw [if_neg hne]
    exact hh

/-- Step 3 keeps the node list and adds only non-self-loop edges. -/
theorem buildStep3_pres (cs : List ClassInfo) (g2 : DependencyGraph) :
    NodesEdgesOK g2 (buildStep3 cs g2) := by
  unfold buildStep3
  refine foldl_rec _ (NodesEdgesOK g2) cs g2 ⟨rfl, fun e he => Or.inl he⟩ ?_
  intro g cls _ hg
  have hstep : ∀ (h : DependencyGraph) (tn ty lbl : String), NodesEdgesOK g2 h →
      NodesEdgesOK g2 (addResolvedEdge h cls.full_name tn ty lbl) := by
    intro h tn ty lbl hh
    obtain ⟨p1, p2⟩ := addResolvedEdge_pres h cls.full_name tn ty lbl
    refine ⟨p1.trans hh.1, ?_⟩
    intro e he
    rcases p2 e he with h1 | h1
    · exact hh.2 e h1
    · exact Or.inr h1
  exact foldl_rec _ (NodesEdgesOK g2) cls.interfaces _
    (foldl_rec _ (NodesEdgesOK g2) cls.base_classes _
      (foldl_rec _ (NodesEdgesOK g2) cls.constructors g hg (fun h ctor _ hh =>
        foldl_rec _ (NodesEdgesOK g2) ctor.parameters h hh (fun h2 param _ hh2 =>
          hstep h2 param.type_name "injects" ("constructor param: " ++ param.name) hh2)))
      (fun h base _ hh => hstep h base "inherits" ("extends " ++ base) hh))
    (fun h iface _ hh => hstep h iface "implements" ("implements " ++ iface) hh)

/-- Every value in `cq_by_name` is a node of the graph with role
command or query. -/
theorem cqByName_values (g : DependencyGraph) :
    ∀ p ∈ cqByName g, p.2 ∈ g.nodesList.map Prod.snd
      ∧ (p.2.role = "command" ∨ p.2.role = "query") := by
  unfold cqByName
  refine foldl_rec _ (fun (d : List (String × GraphNode)) =>
    ∀ p ∈ d, p.2 ∈ g.nodesList.map Prod.snd
      ∧ (p.2.role = "command" ∨ p.2.role = "query")) _ [] ?_ ?_
  · intro p hp
    simp at hp
  · intro d n hn hd p hp
    rcases mem_assocInsert _ _ _ p hp with h | h
    · exact hd p h
    · subst h
      rcases List.mem_filter.mp hn with ⟨hmem, hrole⟩
      refine ⟨hmem, ?_⟩
      simpa using hrole

/-- With well-formed keys, distinct node values have distinct full
names. -/
theorem nodes_fullname_inj (l : List (String × GraphNode))
    (hwf : ∀ p ∈ l, p.1 = p.2.class_info.full_name)
    (hnd : (l.map Prod.fst).Nodup) :
    ∀ n1 ∈ l.map Prod.snd, ∀ n2 ∈ l.map Prod.snd,
      n1.class_info.full_name = n2.class_info.full_name → n1 = n2 := by
  intro n1 h1 n2 h2 heq
  rcases List.mem_map.mp h1 with ⟨p1, hp1, he1⟩
  rcases List.mem_map.mp h2 with ⟨p2, hp2, he2⟩
  have hm1 : (n1.class_info.full_name, n1) ∈ l := by
    have : p1 = (n1.class_info.full_name, n1) := by
      obtain ⟨a, b⟩ := p1
      have hb : b = n1 := he1
      subst hb
      have ha : a = b.class_info.full_name := hwf (a, b) hp1
      rw [ha]
    rw [← this]
    exact hp1
  have hm2 : (n1.class_info.full_name, n2) ∈ l := by
    have : p2 = (n1.class_info.full_name, n2) := by
      obtain ⟨a, b⟩ := p2
      have hb : b = n2 := he2
      subst hb
      have ha : a = b.class_info.full_name := hwf (a, b) hp2
      rw [ha, ← heq]
    rw [← this]
    exact hp2
  exact mem_keys_unique l hnd n1.class_info.full_name n1 n2 hm1 hm2

/-- Step 4 keeps the node list and adds only non-self-loop edges:
`handles` edges run from a handler-role node to a command/query-role
node, and a single full name cannot carry both roles. -/
theorem buildStep4_pres (cq : List (String × GraphNode)) (g3 : DependencyGraph)
    (hwf : ∀ p ∈ g3.nodesList, p.1 = p.2.class_info.full_name)
    (hnd : (g3.nodesList.map Prod.fst).Nodup)
    (hcq : ∀ p ∈ cq, p.2 ∈ g3.nodesList.map Prod.snd
      ∧ (p.2.role = "command" ∨ p.2.role = "query")) :
    NodesEdgesOK g3 (buildStep4 cq g3) := by
  unfold buildStep4
  refine foldl_rec _ (NodesEdgesOK g3) _ g3 ⟨rfl, fun e he => Or.inl he⟩ ?_
  intro g hn hhn hg
  rcases List.mem_filter.mp hhn with ⟨hnmem, hnrole⟩
  have hnrole' : hn.role = "handler" := by
    simpa using hnrole
  have hne : ∀ (key : String) (cqn : GraphNode), assocFind cq key = some cqn →
      hn.full_name ≠ cqn.full_name := by
    intro key cqn hfind heq
    have hcqn := hcq (key, cqn) (assocFind_mem cq key cqn hfind)
    have heqn : hn = cqn := nodes_fullname_inj g3.nodesList hwf hnd hn hnmem cqn hcqn.1 heq
    rcases hcqn.2 with hr | hr
    · rw [heqn] at hnrole'
      exact absurd (hr.symm.trans hnrole') (by decide)
    · rw [heqn] at hnrole'
      exact absurd (hr.symm.trans hnrole') (by decide)
  have haddOK : ∀ (h : DependencyGraph) (cqn : GraphNode) (key lbl : String),
      assocFind cq key = some cqn → NodesEdgesOK g3 h →
      NodesEdgesOK g3 (h.add_edge ⟨hn.full_name, cqn.full_name, "handles", lbl⟩) := by
    intro h cqn key lbl hfind hh
    refine ⟨hh.1, ?_⟩
    intro e he
    rcases List.mem_append.mp he with h1 | h1
    · exact hh.2 e h1
    · right
      rw [List.mem_singleton.mp h1]
      exact hne key cqn hfind
  have hconv : NodesEdgesOK g3
      (match assocFind cq (strReplace hn.class_info.name "Handler" "" ++ "Command") with
       | some cqn => g.add_edge ⟨hn.full_name, cqn.full_name, "handles",
           "handles " ++ strReplace hn.class_info.name "Handler" "" ++ "Command"⟩
       | none =>
         match assocFind cq (strReplace hn.class_info.name "Handler" "" ++ "Query") with
         | some cqn => g.add_edge ⟨hn.full_name, cqn.full_name, "handles",
             "handles " ++ strReplace hn.class_info.name "Handler" "" ++ "Query"⟩
         | none => g) := by
    rcases hC : assocFind cq (strReplace hn.class_info.name "Handler" "" ++ "Command")
      with _ | cqn
    · rcases hQ : assocFind cq (strReplace hn.class_info.name "Handler" "" ++ "Query")
        with _ | cqn
      · exact hg
      · exact haddOK g cqn _ _ hQ hg
    · exact haddOK g cqn _ _ hC hg
  refine foldl_rec _ (NodesEdgesOK g3) hn.class_info.interfaces _ hconv ?_
  intro h iface _ hh
  split
  · exact hh
  next arg =>
    split
    · exact hh
    next cqn hF =>
      dsimp only
      split
      · exact hh
      · exact haddOK h cqn _ _ hF hh

/-- Step 5 keeps the node list and adds only non-self-loop edges:
`sends` edges run from an endpoint-role node to a command/query-role
node. -/
theorem buildStep5_pres (cq : List (String × GraphNode)) (g4 : DependencyGraph)
    (hwf : ∀ p ∈ g4.nodesList, p.1 = p.2.class_info.full_name)
    (hnd : (g4.nodesList.map Prod.fst).Nodup)
    (hcq : ∀ p ∈ cq, p.2 ∈ g4.nodesList.map Prod.snd
      ∧ (p.2.role = "command" ∨ p.2.role = "query")) :
    NodesEdgesOK g4 (buildStep5 cq g4) := by
  unfold buildStep5
  refine foldl_rec _ (NodesEdgesOK g4) _ g4 ⟨rfl, fun e he => Or.inl he⟩ ?_
  intro g en hen hg
  rcases List.mem_filter.mp hen with ⟨enmem, enrole⟩
  have enrole' : en.role = "endpoint" := by
    simpa using enrole
  have hneP : ∀ p ∈ cq, en.full_name ≠ p.2.full_name := by
    intro p hp heq
    have hcqp := hcq p hp
    have heqn : en = p.2 := nodes_fullname_inj g4.nodesList hwf hnd en enmem p.2 hcqp.1 heq
    rcases hcqp.2 with hr | hr
    · rw [heqn] at enrole'
      exact absurd (hr.symm.trans enrole') (by decide)
    · rw [heqn] at enrole'
      exact absurd (hr.symm.trans enrole') (by decide)
  have haddOK : ∀ (h : DependencyGraph) (tgt lbl : String), en.full_name ≠ tgt →
      NodesEdgesOK g4 h → NodesEdgesOK g4 (h.add_edge ⟨en.full_name, tgt, "sends", lbl⟩) := by
    intro h tgt lbl hne hh
    refine ⟨hh.1, ?_⟩
    intro e he
    rcases List.mem_append.mp he with h1 | h1
    · exact hh.2 e h1
    · right
      rw [List.mem_singleton.mp h1]
      exact hne
  refine foldl_rec _ (NodesEdgesOK g4) en.class_info.base_classes _ ?_ ?_
  · refine foldl_rec _ (NodesEdgesOK g4) en.class_info.constructors g hg ?_
    intro h ctor _ hh
    refine foldl_rec _ (NodesEdgesOK g4) ctor.parameters h hh ?_
    intro h2 param _ hh2
    dsimp only
    split
    next cqn hSome =>
      exact haddOK h2 cqn.full_name _ (hneP _ (assocFind_mem cq _ cqn hSome)) hh2
    next hNone =>
      exact hh2
  · intro h b _ hh
    split
    · exact hh
    next arg hE =>
      dsimp only
      refine foldl_rec _ (NodesEdgesOK g4) cq h hh ?_
      intro h2 p hp hh2
      split
      · exact haddOK h2 p.2.full_name _ (hneP p hp) hh2
      · exact hh2

/-- Claim C3: for every graph produced by `build_dependency_graph`
from any project assignment and any list of class descriptors, no edge
of any kind has source equal to target. -/
theorem c3_no_self_edges (pf : ClassInfo → String) (cs : List ClassInfo) :
    ((build_dependency_graph pf cs).edges.all (fun e => e.source != e.target)) = true := by
  obtain ⟨hwf1, hnd1, hed1⟩ := buildStep1_wf pf cs
  obtain ⟨hn2, he2⟩ := buildStep2_pres cs (buildStep1 pf cs)
  obtain ⟨hn3, he3⟩ := buildStep3_pres cs (buildStep2 cs (buildStep1 pf cs))
  have hwf3 : ∀ p ∈ (buildStep3 cs (buildStep2 cs (buildStep1 pf cs))).nodesList,
      p.1 = p.2.class_info.full_name := by
    rw [hn3, hn2]
    exact hwf1
  have hnd3 : ((buildStep3 cs (buildStep2 cs (buildStep1 pf cs))).nodesList.map
      Prod.fst).Nodup := by
    rw [hn3, hn2]
    exact hnd1
  have hcq3 := cqByName_values (buildStep3 cs (buildStep2 cs (buildStep1 pf cs)))
  obtain ⟨hn4, he4⟩ := buildStep4_pres (cqByName (buildStep3 cs (buildStep2 cs (buildStep1 pf cs))))
    (buildStep3 cs (buildStep2 cs (buildStep1 pf cs))) hwf3 hnd3 hcq3
  have hwf4 : ∀ p ∈ (buildStep4 (cqByName (buildStep3 cs (buildStep2 cs (buildStep1 pf cs))))
      (buildStep3 cs (buildStep2 cs (buildStep1 pf cs)))).nodesList,
      p.1 = p.2.class_info.full_name := by
    rw [hn4]
    exact hwf3
  have hnd4 : ((buildStep4 (cqByName (buildStep3 cs (buildStep2 cs (buildStep1 pf cs))))
      (buildStep3 cs (buildStep2 cs (buildStep1 pf cs)))).nodesList.map Prod.fst).Nodup := by
    rw [hn4]
    exact hnd3
  have hcq4 : ∀ p ∈ cqByName (buildStep3 cs (buildStep2 cs (buildStep1 pf cs))),
      p.2 ∈ (buildStep4 (cqByName (buildStep3 cs (buildStep2 cs (buildStep1 pf cs))))
        (buildStep3 cs (buildStep2 cs (buildStep1 pf cs)))).nodesList.map Prod.snd
      ∧ (p.2.role = "command" ∨ p.2.role = "query") := by
    intro p hp
    obtain ⟨hm, hr⟩ := hcq3 p hp
    refine ⟨?_, hr⟩
    rw [hn4]
    exact hm
  obtain ⟨hn5, he5⟩ := buildStep5_pres
    (cqByName (buildStep3 cs (buildStep2 cs (buildStep1 pf cs))))
    (buildStep4 (cqByName (buildStep3 cs (buildStep2 cs (buildStep1 pf cs))))
      (buildStep3 cs (buildStep2 cs (buildStep1 pf cs)))) hwf4 hnd4 hcq4
  rw [List.all_eq_true]
  intro e he
  have hne : e.source ≠ e.target := by
    have he' : e ∈ (buildStep5 (cqByName (buildStep3 cs (buildStep2 cs (buildStep1 pf cs))))
        (buildStep4 (cqByName (buildStep3 cs (buildStep2 cs (buildStep1 pf cs))))
          (buildStep3 cs (buildStep2 cs (buildStep1 pf cs))))).edges := he
    rcases he5 e he' with h1 | h1
    · rcases he4 e h1 with h2 | h2
      · rcases he3 e h2 with h3 | h3
        · rw [he2, hed1] at h3
          simp at h3
        · exact h3
      · exact h2
    · exact h1
  exact bne_iff_ne.mpr hne

/-- Membership in a Python `set.add`. -/
theorem sAdd_mem (l : List String) (x y : String) : y ∈ sAdd l x ↔ y ∈ l ∨ y = x := by
  unfold sAdd
  split
  next hx =>
    constructor
    · exact Or.inl
    · rintro (h | rfl)
      · exact h
      · exact hx
  next hx =>
    simp

/-- One upstream-classification iteration, indirect component: the
element is added exactly when it is unchanged, not yet direct, a known
node, and has a direct dependency in the changed set. -/
theorem classifyOne_fst (g : DependencyGraph) (changed d : List String)
    (acc : List String × List String) (u y : String) :
    y ∈ (classifyOne g changed d acc u).1
      ↔ y ∈ acc.1 ∨ (y = u ∧ u ∉ changed ∧ u ∉ d ∧ (g.lookupNode u).isSome = true
          ∧ somedepChanged g changed u = true) := by
  unfold classifyOne
  split
  next h1 =>
    constructor
    · exact Or.inl
    · rintro (h | ⟨_, hnc, _⟩)
      · exact h
      · exact absurd h1 hnc
  next h1 =>
    split
    next h2 =>
      constructor
      · exact Or.inl
      · rintro (h | ⟨_, _, hnd2, _⟩)
        · exact h
        · exact absurd h2 hnd2
    next h2 =>
      split
      next hL =>
        constructor
        · exact Or.inl
        · rintro (h | ⟨_, _, _, hsome, _⟩)
          · exact h
          · rw [hL] at hsome
            simp at hsome
      next node hL =>
        split
        next h3 =>
          rw [sAdd_mem]
          constructor
          · rintro (h | rfl)
            · exact Or.inl h
            · exact Or.inr ⟨rfl, h1, h2, by rw [hL]; rfl, h3⟩
          · rintro (h | ⟨rfl, _, _, _, _⟩)
            · exact Or.inl h
            · exact Or.inr rfl
        next h3 =>
          constructor
          · exact Or.inl
          · rintro (h | ⟨rfl, _, _, _, hsd⟩)
            · exact h
            · exact absurd hsd h3

/-- One upstream-classification iteration, transitive component. -/
theorem classifyOne_snd (g : DependencyGraph) (changed d : List String)
    (acc : List String × List String) (u y : String) :
    y ∈ (classifyOne g changed d acc u).2
      ↔ y ∈ acc.2 ∨ (y = u ∧ u ∉ changed ∧ u ∉ d ∧ (g.lookupNode u).isSome = true
          ∧ somedepChanged g changed u = false) := by
  unfold classifyOne
  split
  next h1 =>
    constructor
    · exact Or.inl
    · rintro (h | ⟨_, hnc, _⟩)
      · exact h
      · exact absurd h1 hnc
  next h1 =>
    split
    next h2 =>
      constructor
      · exact Or.inl
      · rintro (h | ⟨_, _, hnd2, _⟩)
        · exact h
        · exact absurd h2 hnd2
    next h2 =>
      split
      next hL =>
        constructor
        · exact Or.inl
        · rintro (h | ⟨_, _, _, hsome, _⟩)
          · exact h
          · rw [hL] at hsome
            simp at hsome
      next node hL =>
        split
        next h3 =>
          constructor
          · exact Or.inl
          · rintro (h | ⟨rfl, _, _, _, hsd⟩)
            · exact h
            · rw [hsd] at h3
              simp at h3
        next h3 =>
          rw [sAdd_mem]
          constructor
          · rintro (h | rfl)
            · exact Or.inl h
            · refine Or.inr ⟨rfl, h1, h2, by rw [hL]; rfl, ?_⟩
              simpa using h3
          · rintro (h | ⟨rfl, _, _, _, _⟩)
            · exact Or.inl h
            · exact Or.inr rfl

/-- Folding the classification over the whole upstream list, indirect
component. -/
theorem classifyFold_fst (g : DependencyGraph) (changed d : List String) :
    ∀ (us : List String) (acc : List String × List String) (y : String),
      y ∈ (us.foldl (classifyOne g changed d) acc).1
        ↔ y ∈ acc.1 ∨ ∃ u ∈ us, y = u ∧ u ∉ changed ∧ u ∉ d
            ∧ (g.lookupNode u).isSome = true ∧ somedepChanged g changed u = true := by
  intro us
  induction us with
  | nil =>
    intro acc y
    simp
  | cons u rest ih =>
    intro acc y
    rw [List.foldl_cons, ih, classifyOne_fst]
    constructor
    · rintro ((h | hcond) | ⟨u2, hu2, hc2⟩)
      · exact Or.inl h
      · exact Or.inr ⟨u, List.mem_cons_self _ _, hcond⟩
      · exact Or.inr ⟨u2, List.mem_cons_of_mem _ hu2, hc2⟩
    · rintro (h | ⟨u2, hu2, hc2⟩)
      · exact Or.inl (Or.inl h)
      · rcases List.mem_cons.mp hu2 with rfl | hmem
        · exact Or.inl (Or.inr hc2)
        · exact Or.inr ⟨u2, hmem, hc2⟩

/-- Folding the classification over the whole upstream list, transitive
component. -/
theorem classifyFold_snd (g : DependencyGraph) (changed d : List String) :
    ∀ (us : List String) (acc : List String × List String) (y : String),
      y ∈ (us.foldl (classifyOne g changed d) acc).2
        ↔ y ∈ acc.2 ∨ ∃ u ∈ us, y = u ∧ u ∉ changed ∧ u ∉ d
            ∧ (g.lookupNode u).isSome = true ∧ somedepChanged g changed u = false := by
  intro us
  induction us with
  | nil =>
    intro acc y
    simp
  | cons u rest ih =>
    intro acc y
    rw [List.foldl_cons, ih, classifyOne_snd]
    constructor
    · rintro ((h | hcond) | ⟨u2, hu2, hc2⟩)
      · exact Or.inl h
      · exact Or.inr ⟨u, List.mem_cons_self _ _, hcond⟩
      · exact Or.inr ⟨u2, List.mem_cons_of_mem _ hu2, hc2⟩
    · rintro (h | ⟨u2, hu2, hc2⟩)
      · exact Or.inl (Or.inl h)
      · rcases List.mem_cons.mp hu2 with rfl | hmem
        · exact Or.inl (Or.inr hc2)
        · exact Or.inr ⟨u2, hmem, hc2⟩

/-- The direct-dependents accumulation of one changed class. -/
theorem dependentsFold_mem (changed : List String) :
    ∀ (ns : List GraphNode) (d0 : List String) (y : String),
      y ∈ ns.foldl (fun d n => if n.full_name ∉ changed then sAdd d n.full_name else d) d0
        ↔ y ∈ d0 ∨ ∃ n ∈ ns, n.full_name = y ∧ y ∉ changed := by
  intro ns
  induction ns with
  | nil =>
    intro d0 y
    simp
  | cons n rest ih =>
    intro d0 y
    rw [List.foldl_cons, ih]
    by_cases hn : n.full_name ∉ changed
    · rw [if_pos hn, sAdd_mem]
      constructor
      · rintro ((h | rfl) | ⟨n2, hm, hp⟩)
        · exact Or.inl h
        · exact Or.inr ⟨n, List.mem_cons_self _ _, rfl, hn⟩
        · exact Or.inr ⟨n2, List.mem_cons_of_mem _ hm, hp⟩
      · rintro (h | ⟨n2, hm, hfn, hnc⟩)
        · exact Or.inl (Or.inl h)
        · rcases List.mem_cons.mp hm with rfl | hm2
          · exact Or.inl (Or.inr hfn.symm)
          · exact Or.inr ⟨n2, hm2, hfn, hnc⟩
    · rw [if_neg hn]
      constructor
      · rintro (h | ⟨n2, hm, hp⟩)
        · exact Or.inl h
        · exact Or.inr ⟨n2, List.mem_cons_of_mem _ hm, hp⟩
      · rintro (h | ⟨n2, hm, hfn, hnc⟩)
        · exact Or.inl h
        · rcases List.mem_cons.mp hm with rfl | hm2
          · exact absurd (hfn ▸ (not_not.mp hn)) hnc
          · exact Or.inr ⟨n2, hm2, hfn, hnc⟩

/-- Direct component of one `impactStep`. -/
theorem impactStep_direct (g : DependencyGraph) (changed : List String) (maxDepth : Nat)
    (s : ImpactSets) (c y : String) :
    y ∈ (impactStep g changed maxDepth s c).direct
      ↔ y ∈ s.direct ∨ ∃ n ∈ g.get_dependents c, n.full_name = y ∧ y ∉ changed := by
  unfold impactStep
  dsimp only
  exact dependentsFold_mem changed _ _ y

/-- Indirect component of one `impactStep`: additions require a direct
dependency in the changed set. -/
theorem impactStep_indirect (g : DependencyGraph) (changed : List String) (maxDepth : Nat)
    (s : ImpactSets) (c y : String) :
    y ∈ (impactStep g changed maxDepth s c).indirect
      ↔ y ∈ s.indirect ∨ ∃ u ∈ g.get_all_upstream c maxDepth, y = u ∧ u ∉ changed
          ∧ u ∉ (impactStep g changed maxDepth s c).direct
          ∧ (g.lookupNode u).isSome = true ∧ somedepChanged g changed u = true := by
  unfold impactStep
  dsimp only
  exact classifyFold_fst g changed _ _ _ y

/-- Transitive component of one `impactStep`: additions require that no
direct dependency lies in the changed set. -/
theorem impactStep_transitive (g : DependencyGraph) (changed : List String) (maxDepth : Nat)
    (s : ImpactSets) (c y : String) :
    y ∈ (impactStep g changed maxDepth s c).transitive
      ↔ y ∈ s.transitive ∨ ∃ u ∈ g.get_all_upstream c maxDepth, y = u ∧ u ∉ changed
          ∧ u ∉ (impactStep g changed maxDepth s c).direct
          ∧ (g.lookupNode u).isSome = true ∧ somedepChanged g changed u = false := by
  unfold impactStep
  dsimp only
  exact classifyFold_snd g changed _ _ _ y

/-- The three classification sets only grow along the fold over changed
classes. -/
theorem impactFold_mono (g : DependencyGraph) (changed : List String) (maxDepth : Nat) :
    ∀ (l : List String) (s : ImpactSets) (y : String),
      (y ∈ s.direct → y ∈ (l.foldl (impactStep g changed maxDepth) s).direct)
      ∧ (y ∈ s.indirect → y ∈ (l.foldl (impactStep g changed maxDepth) s).indirect)
      ∧ (y ∈ s.transitive → y ∈ (l.foldl (impactStep g changed maxDepth) s).transitive) := by
  intro l
  induction l with
  | nil =>
    intro s y
    exact ⟨id, id, id⟩
  | cons c rest ih =>
    intro s y
    rw [List.foldl_cons]
    refine ⟨?_, ?_, ?_⟩
    · intro h
      exact (ih (impactStep g changed maxDepth s c) y).1
        ((impactStep_direct g changed maxDepth s c y).mpr (Or.inl h))
    · intro h
      exact (ih (impactStep g changed maxDepth s c) y).2.1
        ((impactStep_indirect g changed maxDepth s c y).mpr (Or.inl h))
    · intro h
      exact (ih (impactStep g changed maxDepth s c) y).2.2
        ((impactStep_transitive g changed maxDepth s c y).mpr (Or.inl h))

/-- A member of the folded indirect set was either there initially or
has a direct dependency in the changed set. -/
theorem impactFold_indirect_sound (g : DependencyGraph) (changed : List String)
    (maxDepth : Nat) :
    ∀ (l : List String) (s : ImpactSets) (y : String),
      y ∈ (l.foldl (impactStep g changed maxDepth) s).indirect →
      y ∈ s.indirect ∨ somedepChanged g changed y = true := by
  intro l
  induction l with
  | nil =>
    intro s y h
    exact Or.inl h
  | cons c rest ih =>
    intro s y h
    rw [List.foldl_cons] at h
    rcases ih (impactStep g changed maxDepth s c) y h with h1 | h1
    · rcases (impactStep_indirect g changed maxDepth s c y).mp h1 with h2 | h2
      · exact Or.inl h2
      · obtain ⟨u, _, rfl, _, _, _, hsd⟩ := h2
        exact Or.inr hsd
    · exact Or.inr h1

/-- A member of the folded transitive set was either there initially or
has no direct dependency in the changed set. -/
theorem impactFold_transitive_sound (g : DependencyGraph) (changed : List String)
    (maxDepth : Nat) :
    ∀ (l : List String) (s : ImpactSets) (y : String),
      y ∈ (l.foldl (impactStep g changed maxDepth) s).transitive →
      y ∈ s.transitive ∨ somedepChanged g changed y = false := by
  intro l
  induction l with
  | nil =>
    intro s y h
    exact Or.inl h
  | cons c rest ih =>
    intro s y h
    rw [List.foldl_cons] at h
    rcases ih (impactStep g changed maxDepth s c) y h with h1 | h1
    · rcases (impactStep_transitive g changed maxDepth s c y).mp h1 with h2 | h2
      · exact Or.inl h2
      · obtain ⟨u, _, rfl, _, _, _, hsd⟩ := h2
        exact Or.inr hsd
    · exact Or.inr h1

/-- Claim C1 (amended): in impact analysis, a node of the bounded
upstream set of a changed class that is neither changed nor in the
final direct set is classified indirect exactly when at least one of
its own direct (one-hop) dependencies is in the CHANGED set (not the
direct set, as the original claim stated), and transitive otherwise.
The statement holds for every iteration order of the changed set. -/
theorem c1_upstream_classification (g : DependencyGraph) (changed : List String)
    (maxDepth : Nat) (c y : String)
    (hc : c ∈ changed)
    (hup : y ∈ g.get_all_upstream c maxDepth)
    (hnc : y ∉ changed)
    (hnd : y ∉ (computeImpactSets g changed maxDepth).direct)
    (hnode : (g.lookupNode y).isSome = true) :
    (somedepChanged g changed y = true →
      y ∈ (computeImpactSets g changed maxDepth).indirect
      ∧ y ∉ (computeImpactSets g changed maxDepth).transitive)
    ∧ (somedepChanged g changed y = false →
      y ∈ (computeImpactSets g changed maxDepth).transitive
      ∧ y ∉ (computeImpactSets g changed maxDepth).indirect) := by
  obtain ⟨l1, l2, rfl⟩ := List.append_of_mem hc
  have hfold : computeImpactSets g (l1 ++ c :: l2) maxDepth
      = l2.foldl (impactStep g (l1 ++ c :: l2) maxDepth)
          (impactStep g (l1 ++ c :: l2) maxDepth
            (l1.foldl (impactStep g (l1 ++ c :: l2) maxDepth) ⟨[], [], []⟩) c) := by
    unfold computeImpactSets
    rw [List.foldl_append, List.foldl_cons]
  have hd_c : y ∉ (impactStep g (l1 ++ c :: l2) maxDepth
      (l1.foldl (impactStep g (l1 ++ c :: l2) maxDepth) ⟨[], [], []⟩) c).direct := by
    intro hmem
    apply hnd
    rw [hfold]
    exact (impactFold_mono g (l1 ++ c :: l2) maxDepth l2 _ y).1 hmem
  constructor
  · intro hsd
    constructor
    · rw [hfold]
      refine (impactFold_mono g (l1 ++ c :: l2) maxDepth l2 _ y).2.1 ?_
      exact (impactStep_indirect g (l1 ++ c :: l2) maxDepth _ c y).mpr
        (Or.inr ⟨y, hup, rfl, hnc, hd_c, hnode, hsd⟩)
    · intro htr
      unfold computeImpactSets at htr
      rcases impactFold_transitive_sound g (l1 ++ c :: l2) maxDepth (l1 ++ c :: l2)
          ⟨[], [], []⟩ y htr with h1 | h1
      · simp at h1
      · rw [hsd] at h1
        simp at h1
  · intro hsd
    constructor
    · rw [hfold]
      refine (impactFold_mono g (l1 ++ c :: l2) maxDepth l2 _ y).2.2 ?_
      exact (impactStep_transitive g (l1 ++ c :: l2) maxDepth _ c y).mpr
        (Or.inr ⟨y, hup, rfl, hnc, hd_c, hnode, hsd⟩)
    · intro hin
      unfold computeImpactSets at hin
      rcases impactFold_indirect_sound g (l1 ++ c :: l2) maxDepth (l1 ++ c :: l2)
          ⟨[], [], []⟩ y hin with h1 | h1
      · simp at h1
      · rw [hsd] at h1
        simp at h1

/-- Counterexample to claim C1 as stated: in the chain
`NS.X → NS.B → NS.C` with `NS.C` changed, the direct set is exactly
`[NS.B]`, `NS.X` lies in the bounded upstream set, is neither changed
nor direct, and its one-hop dependency `NS.B` IS in the direct set —
yet the analyzer classifies `NS.X` as transitive, not indirect,
because the code tests membership in the changed set, not the direct
set. -/
theorem c1_direct_set_claim_cex :
    (computeImpactSets chainGraph ["NS.C"] 5).direct = ["NS.B"]
    ∧ "NS.X" ∈ chainGraph.get_all_upstream "NS.C" 5
    ∧ "NS.B" ∈ (chainGraph.get_dependencies "NS.X").map GraphNode.full_name
    ∧ "NS.X" ∉ (computeImpactSets chainGraph ["NS.C"] 5).indirect
    ∧ "NS.X" ∈ (computeImpactSets chainGraph ["NS.C"] 5).transitive := by
  exact ⟨by decide, by decide, by decide, by decide, by decide⟩

/-- Witness for the amended C1, both branches: in `mismatchedGraph`
the node `NS.Y` (upstream of changed `NS.F`, not changed, not direct)
has a dependency whose full name is in the changed set and lands in
the indirect set; in `chainGraph` the node `NS.X` has none and lands
in the transitive set. -/
theorem c1_upstream_classification_witness :
    ("NS.Y" ∈ (computeImpactSets mismatchedGraph ["NS.F"] 5).indirect
      ∧ "NS.Y" ∉ (computeImpactSets mismatchedGraph ["NS.F"] 5).transitive)
    ∧ ("NS.X" ∈ (computeImpactSets chainGraph ["NS.C"] 5).transitive
      ∧ "NS.X" ∉ (computeImpactSets chainGraph ["NS.C"] 5).indirect) :=
  ⟨(c1_upstream_classification mismatchedGraph ["NS.F"] 5 "NS.F" "NS.Y" (by decide) (by decide)
      (by decide) (by decide) (by decide)).1 (by decide),
   (c1_upstream_classification chainGraph ["NS.C"] 5 "NS.C" "NS.X" (by decide) (by decide)
      (by decide) (by decide) (by decide)).2 (by decide)⟩
